import Mathlib

/-!
Verification of the record-validator schema in `schema_pydantic.py`.

The source defines a closed-shape validated record (`DrugInfo`) with
nested value objects, two custom field validators
(`_no_psychonautwiki` on `search_url`, `_notes_min_sentences` on the
top-level `notes`), and a helper `to_openai_structured_output` that
wraps the record's JSON Schema in a fixed envelope.

We shallow-embed the untyped input as a `Json` value, each pydantic
model as a Lean structure with an explicit construction function
(pydantic validates fields in declaration order, rejects undeclared
keys via `extra="forbid"`, and reports missing keys; we render this as
an `Except String` computation), and the pydantic string-enum fields
as strings constrained to the declared token set (a Python `str` Enum
member equals its string value).  Numbers are rationals: every numeric
constraint in the source (`ge`/`le` bounds) is an order constraint
that does not depend on float rounding.
-/

/-- Untyped JSON-like input value, as decoded from a candidate mapping. -/
inductive Json where
  | null : Json
  | bool : Bool → Json
  | num : Rat → Json
  | str : String → Json
  | arr : List Json → Json
  | obj : List (String × Json) → Json

/-- First-match key lookup in an object, as in a Python dict access. -/
def lookupJ (o : List (String × Json)) (k : String) : Option Json :=
  match o with
  | [] => none
  | kv :: rest => if kv.1 = k then some kv.2 else lookupJ rest k

/-- Boolean success test for an `Except` computation. -/
def isOkE {α : Type} (e : Except String α) : Bool :=
  match e with
  | .ok _ => true
  | .error _ => false

/-- Substring test on character lists: models the Python `in` operator
on strings. -/
def containsSub (pat : List Char) : List Char → Bool
  | [] => pat.isEmpty
  | c :: rest => pat.isPrefixOf (c :: rest) || containsSub pat rest

/-- The banned-domain literal from `_no_psychonautwiki`. -/
def bannedDomain : List Char := "psychonautwiki.org".data

/-- Models `"psychonautwiki.org" in s.lower()`: the lowercased string
contains the banned-domain substring (the pattern itself is already
lowercase, so this is the case-insensitive containment test).
Lowercasing is per character, as Python lowercases each character of
the string. -/
def lowerContainsBanned (s : String) : Bool :=
  containsSub bannedDomain (s.data.map Char.toLower)

/-- The `_no_psychonautwiki` field validator: fail if the parsed host
(empty string when absent) lowercased contains the banned domain, or
if the lowercased raw URL string contains it; otherwise return the
value unchanged. -/
def no_psychonautwiki (host : String) (v : String) : Except String String :=
  if (host != "") && lowerContainsBanned host then
    .error "search_url must not be a PsychonautWiki.org URL"
  else if lowerContainsBanned v then
    .error "search_url must not be a PsychonautWiki.org URL"
  else
    .ok v

/-- Characters of the sentence-delimiter class `[.!?]` in
`_notes_min_sentences`. -/
def sentenceDelim (c : Char) : Bool := c == '.' || c == '!' || c == '?'

/-- Helper for `splitSentences`: fold from the right, keeping the
segment list of the suffix processed so far together with a flag
telling whether that suffix starts with a delimiter character (so a
new delimiter extends the same run instead of opening a new empty
segment). -/
def splitSentencesAux : List Char → List (List Char) × Bool
  | [] => ([[]], false)
  | c :: rest =>
    let p := splitSentencesAux rest
    if sentenceDelim c then
      if p.2 then (p.1, true) else ([] :: p.1, true)
    else
      match p.1 with
      | [] => ([[c]], false)
      | seg :: segs => ((c :: seg) :: segs, false)

/-- Models `re.split(r"[.!?]+", v)` on the character list of `v`:
maximal runs of delimiter characters separate the segments, and the
boundary segments may be empty. -/
def splitSentences (l : List Char) : List (List Char) :=
  (splitSentencesAux l).1

/-- Models `[s for s in re.split(...) if s.strip()]`: keep the
segments that still hold a non-whitespace character. -/
def sentencesOf (v : String) : List (List Char) :=
  (splitSentences v.data).filter (fun s => s.any (fun c => !c.isWhitespace))

/-- The `_notes_min_sentences` field validator: fewer than 3 kept
segments is an error, otherwise the value is returned unchanged. -/
def notes_min_sentences (v : String) : Except String String :=
  if (sentencesOf v).length < 3 then
    .error "notes must contain at least 3 sentences"
  else
    .ok v

example : isOkE (notes_min_sentences "One. Two.") = false := by decide
example : isOkE (notes_min_sentences "One. Two. Three.") = true := by decide
example : lowerContainsBanned "https://PsychonautWiki.org/x" = true := by decide
example : lowerContainsBanned "https://example.com/drug" = false := by decide

/-! ## Field-extraction and scalar-validation helpers

Pydantic reports every field error of a candidate mapping at once; the
claims below only depend on whether construction succeeds, so the
embedding collapses error aggregation into a single first error. -/

/-- Required-field access: a missing key is a structural error (no
field of the source has a default). -/
def getF (o : List (String × Json)) (k : String) : Except String Json :=
  match lookupJ o k with
  | some v => .ok v
  | none => .error ("missing required field: " ++ k)

/-- Models `extra="forbid"`: every present key must be a declared one. -/
def requireClosed (declared : List String) (o : List (String × Json)) :
    Except String Unit :=
  if o.all (fun kv => declared.contains kv.1) then .ok ()
  else .error "extra fields are forbidden"

/-- A `str`-typed field accepts exactly a JSON string. -/
def asStr : Json → Except String String
  | .str s => .ok s
  | _ => .error "expected a string"

/-- A `float`-typed field accepts a JSON number (ints coerce to float
under the declared numeric typing). -/
def asNum : Json → Except String Rat
  | .num q => .ok q
  | _ => .error "expected a number"

/-- A `List[...]` field accepts exactly a JSON array. -/
def asArr : Json → Except String (List Json)
  | .arr a => .ok a
  | _ => .error "expected an array"

/-- A nested-model field accepts exactly a JSON object. -/
def asObj : Json → Except String (List (String × Json))
  | .obj o => .ok o
  | _ => .error "expected an object"

/-- `Percentage = Annotated[float, Field(ge=0, le=100)]`. -/
def parsePercentage (j : Json) : Except String Rat := do
  let q ← asNum j
  if 0 ≤ q ∧ q ≤ 100 then pure q else .error "percentage out of range"

/-- `NonNegativeNumber = Annotated[float, Field(ge=0)]`. -/
def parseNonNegativeNumber (j : Json) : Except String Rat := do
  let q ← asNum j
  if 0 ≤ q then pure q else .error "number must be non-negative"

/-- `Ratio01 = Annotated[float, Field(ge=0, le=1)]`. -/
def parseRatio01 (j : Json) : Except String Rat := do
  let q ← asNum j
  if 0 ≤ q ∧ q ≤ 1 then pure q else .error "ratio out of range"

/-- The route pattern `^[A-Za-z]+$`: one or more ASCII letters. -/
def alphaOnly (s : String) : Bool :=
  !s.data.isEmpty && s.data.all Char.isAlpha

/-- Consume an optional `\d+<tag>` group of the ISO-8601 duration
pattern: the digits must be non-empty and directly followed by the tag
letter, otherwise the input is left untouched (the regex group matches
the empty string). -/
def optNum (tag : Char) (l : List Char) : List Char :=
  let ds := l.takeWhile Char.isDigit
  let rest := l.dropWhile Char.isDigit
  if ds.isEmpty then l
  else
    match rest with
    | t :: r2 => if t == tag then r2 else l
    | [] => l

/-- Models `ISO_DURATION_PATTERN`, the anchored regex
`P(?=.*[T\d])(?:\d+Y)?(?:\d+M)?(?:\d+D)?(?:T(?:\d+H)?(?:\d+M)?(?:\d+S)?)?`:
a leading `P`, a lookahead requiring some `T` or digit after it, then
optional date components and an optional `T`-prefixed time component
reaching the end of the string.  The groups are deterministic because
each digit run must be closed by its own distinct tag letter. -/
def matchISODuration (s : String) : Bool :=
  match s.data with
  | 'P' :: rest =>
    (rest.any (fun c => c == 'T' || c.isDigit)) &&
    (let l := optNum 'D' (optNum 'M' (optNum 'Y' rest))
     match l with
     | [] => true
     | 'T' :: r => (optNum 'S' (optNum 'M' (optNum 'H' r))).isEmpty
     | _ => false)
  | _ => false

example : matchISODuration "PT2H" = true := by decide
example : matchISODuration "P3D" = true := by decide
example : matchISODuration "P" = false := by decide
example : matchISODuration "PT2H30M" = true := by decide
example : matchISODuration "X1D" = false := by decide

/-! ## URL model

Modelled from the spec: the `search_url` field is typed `HttpUrl`, a
validation type of the pydantic library whose code is outside this
repository; the spec requires "a well-formed URL" whose parsed host
feeds the banned-domain validator.  We accept `http`/`https` URLs with
a non-empty host and keep the accepted string unchanged. -/

/-- Characters after the scheme marker, or `none` when the string does
not start with an http(s) scheme. -/
def schemeRest (s : String) : Option (List Char) :=
  if "https://".data.isPrefixOf s.data then some (s.data.drop 8)
  else if "http://".data.isPrefixOf s.data then some (s.data.drop 7)
  else none

/-- Characters ending the host section of a URL. -/
def hostEnd (c : Char) : Bool := c == '/' || c == ':' || c == '?' || c == '#'

/-- Parsed host of a candidate URL string (empty when absent), the
`v.host` attribute read by the `_no_psychonautwiki` validator. -/
def urlHost (s : String) : String :=
  match schemeRest s with
  | some rest => String.mk (rest.takeWhile (fun c => !hostEnd c))
  | none => ""

/-- Well-formedness check of the URL model: an http(s) scheme followed
by a non-empty host. -/
def isWellFormedHttpUrl (s : String) : Bool :=
  match schemeRest s with
  | some rest => !(rest.takeWhile (fun c => !hostEnd c)).isEmpty
  | none => false

/-- `HttpUrl` as a validating identity on strings. -/
def parseHttpUrl (s : String) : Except String String :=
  if isWellFormedHttpUrl s then .ok s else .error "invalid URL"

/-- Full validation of the `search_url` field: `HttpUrl` typing, the
field pattern `^(?!.*psychonautwiki\.org).*` (reject when the raw
string contains the case-sensitive banned substring; the validator
below subsumes it case-insensitively, so the behaviour of `.` across
newlines in the lookahead cannot change acceptance), then the
`_no_psychonautwiki` validator on the parsed host and raw string. -/
def parseSearchUrl (j : Json) : Except String String := do
  let s ← asStr j
  let u ← parseHttpUrl s
  if containsSub bannedDomain u.data then
    .error "string should match pattern"
  else
    no_psychonautwiki (urlHost u) u

example : isOkE (parseSearchUrl (.str "https://example.com/drug")) = true := by decide
example : isOkE (parseSearchUrl (.str "https://PsychonautWiki.org/x")) = false := by decide
example : isOkE (parseSearchUrl (.str "not a url")) = false := by decide
example : urlHost "https://Example.com:8080/x" = "Example.com" := by decide

/-! ## Enumerations

The source enums derive from `str`: a member equals its string value,
so the embedding stores the token string constrained to the declared
set. -/

/-- `DurationUnits` tokens. -/
def durationUnitsTokens : List String := ["hours", "minutes", "days"]

/-- `ToleranceModelType` tokens. -/
def toleranceModelTypeTokens : List String :=
  ["exponential", "linear", "custom", "unknown"]

/-- `ToleranceDataQuality` tokens. -/
def toleranceDataQualityTokens : List String :=
  ["high", "medium", "low", "anecdotal", "theoretical"]

/-- `CategoryEnum` tokens, in declaration order. -/
def categoryEnumTokens : List String :=
  ["psychedelic", "gabapentinoid", "antipsychotic", "medical|off-label",
   "cannabinoid", "cariotoxic", "hepatotoxic", "ototoxic", "neurotoxic",
   "carcinogenic", "toxic|unspecified", "irreversible-damage",
   "dissociative", "stimulant", "research-chemical", "empathogen",
   "habit-forming", "opioid", "depressant", "hallucinogen", "entactogen",
   "deliriant", "antidepressant", "sedative", "nootropic", "barbiturate",
   "benzodiazepine", "supplement", "stimulant-sedative", "anorectic",
   "antiepileptic", "antihistamine"]

/-- Enum-typed field: a string drawn from the declared token set. -/
def parseEnum (tokens : List String) (j : Json) : Except String String := do
  let s ← asStr j
  if tokens.contains s then pure s
  else .error "value is not a valid enumeration member"

/-- ISO-duration-constrained string element. -/
def parseIsoString (j : Json) : Except String String := do
  let s ← asStr j
  if matchISODuration s then pure s
  else .error "string should match the ISO duration pattern"

/-- Route-pattern-constrained string. -/
def parseRouteToken (j : Json) : Except String String := do
  let s ← asStr j
  if alphaOnly s then pure s
  else .error "string should match the route pattern"

/-- Element-wise validation of a JSON array body. -/
def parseListWith {α : Type} (p : Json → Except String α) :
    List Json → Except String (List α)
  | [] => .ok []
  | x :: xs => do
    let y ← p x
    let ys ← parseListWith p xs
    pure (y :: ys)

/-- A `List[...]` field: an array whose elements all validate. -/
def parseArrOf {α : Type} (p : Json → Except String α) (j : Json) :
    Except String (List α) := do
  let a ← asArr j
  parseListWith p a

example : isOkE (parsePercentage (.num 101)) = false := by decide
example : isOkE (parsePercentage (.num 100)) = true := by decide
example : isOkE (parseRatio01 (.num (-1))) = false := by decide
example : isOkE (parseEnum categoryEnumTokens (.str "stimulant")) = true := by decide
example : isOkE (parseEnum categoryEnumTokens (.str "nonsense")) = false := by decide

/-! ## Record structures

One Lean structure per pydantic model, fields in declaration order.
The `end` field of `DurationPhase` is spelled `end_` because `end` is
a Lean keyword. -/

/-- `$defs` model `DurationRange`. -/
structure DurationRange where
  min : Rat
  max : Rat
  iso : List String
  note : String

/-- `$defs` model `DurationPhase`. -/
structure DurationPhase where
  start : Rat
  end_ : Rat
  iso_start : List String
  iso_end : List String

/-- `$defs` model `DurationCurveData`. -/
structure DurationCurveData where
  reference : String
  units : String
  total_duration : DurationRange
  onset : DurationPhase
  peak : DurationPhase
  offset : DurationPhase
  after_effects : DurationPhase

/-- `$defs` model `DurationCurveEntry`. -/
structure DurationCurveEntry where
  method : String
  duration_curve : DurationCurveData

/-- `$defs` model `DoseRanges`. -/
structure DoseRanges where
  threshold : String
  light : String
  common : String
  strong : String
  heavy : String

/-- `$defs` model `RouteOfAdministration`. -/
structure RouteOfAdministration where
  route : String
  units : String
  notes : String
  dose_ranges : DoseRanges

/-- `$defs` model `Dosages`. -/
structure Dosages where
  routes_of_administration : List RouteOfAdministration

/-- `$defs` model `DurationSummary`. -/
structure DurationSummary where
  total_duration : String
  onset : String
  peak : String
  offset : String
  after_effects : String

/-- `$defs` model `Interactions`.  The second source field is named
after a Lean keyword, so it is spelled `not_safe` here; its input key
stays the source string. -/
structure Interactions where
  dangerous : List String
  not_safe : List String
  caution : List String

/-- `$defs` model `ToleranceModel`. -/
structure ToleranceModel where
  type : String
  build_rate : Rat
  decay_rate : Rat
  half_life : Rat

/-- `$defs` model `ToleranceTimelinePoint`. -/
structure ToleranceTimelinePoint where
  hours : Rat
  tolerance_percentage : Rat
  confidence : Rat

/-- `$defs` model `ToleranceBaselinePoint`.  Note that `hours` is a
plain `float` in the source, unlike `ToleranceTimelinePoint.hours`. -/
structure ToleranceBaselinePoint where
  hours : Rat
  confidence : Rat

/-- `$defs` model `ToleranceBaselines`. -/
structure ToleranceBaselines where
  full_tolerance : ToleranceBaselinePoint
  half_tolerance : ToleranceBaselinePoint
  baseline_tolerance : ToleranceBaselinePoint

/-- `$defs` model `CrossToleranceEntry`. -/
structure CrossToleranceEntry where
  substance : String
  ratio : Rat
  confidence : Rat

/-- `$defs` model `ToleranceData`. -/
structure ToleranceData where
  model : ToleranceModel
  timeline : List ToleranceTimelinePoint
  baselines : ToleranceBaselines
  cross_tolerances : List CrossToleranceEntry
  notes : String
  data_quality : String

/-- `$defs` model `Citation`. -/
structure Citation where
  name : String
  reference : String

/-- Root model `DrugInfo`.  (`ToleranceSimple` is declared in the
source but referenced by no field of the object graph, so it plays no
part in any claim.) -/
structure DrugInfo where
  drug_name : String
  search_url : String
  chemical_class : String
  psychoactive_class : String
  dosages : Dosages
  duration : DurationSummary
  duration_curves : List DurationCurveEntry
  addiction_potential : String
  interactions : Interactions
  notes : String
  subjective_effects : List String
  tolerance : ToleranceData
  half_life : String
  citations : List Citation
  categories : List String

/-! ## Construction (validation) functions

Each parse function mirrors pydantic construction of the model from an
untyped mapping: the input must be an object, undeclared keys are
forbidden (`extra="forbid"`), and every declared field is required and
validated by its declared type. -/

/-- Declared keys of `DurationRange`. -/
def DurationRange.declared : List String := ["min", "max", "iso", "note"]

/-- Construction of `DurationRange`. -/
def DurationRange.parse (j : Json) : Except String DurationRange := do
  let o ← asObj j
  let _ ← requireClosed DurationRange.declared o
  let mn ← getF o "min" >>= asNum
  let mx ← getF o "max" >>= asNum
  let iso ← getF o "iso" >>= parseArrOf parseIsoString
  let note ← getF o "note" >>= asStr
  pure ⟨mn, mx, iso, note⟩

/-- Declared keys of `DurationPhase`. -/
def DurationPhase.declared : List String := ["start", "end", "iso_start", "iso_end"]

/-- Construction of `DurationPhase`. -/
def DurationPhase.parse (j : Json) : Except String DurationPhase := do
  let o ← asObj j
  let _ ← requireClosed DurationPhase.declared o
  let st ← getF o "start" >>= asNum
  let en ← getF o "end" >>= asNum
  let isoS ← getF o "iso_start" >>= parseArrOf parseIsoString
  let isoE ← getF o "iso_end" >>= parseArrOf parseIsoString
  pure ⟨st, en, isoS, isoE⟩

/-- Declared keys of `DurationCurveData`. -/
def DurationCurveData.declared : List String :=
  ["reference", "units", "total_duration", "onset", "peak", "offset", "after_effects"]

/-- Construction of `DurationCurveData`. -/
def DurationCurveData.parse (j : Json) : Except String DurationCurveData := do
  let o ← asObj j
  let _ ← requireClosed DurationCurveData.declared o
  let ref ← getF o "reference" >>= asStr
  let units ← getF o "units" >>= parseEnum durationUnitsTokens
  let total ← getF o "total_duration" >>= DurationRange.parse
  let onset ← getF o "onset" >>= DurationPhase.parse
  let peak ← getF o "peak" >>= DurationPhase.parse
  let offset ← getF o "offset" >>= DurationPhase.parse
  let after ← getF o "after_effects" >>= DurationPhase.parse
  pure ⟨ref, units, total, onset, peak, offset, after⟩

/-- Declared keys of `DurationCurveEntry`. -/
def DurationCurveEntry.declared : List String := ["method", "duration_curve"]

/-- Construction of `DurationCurveEntry`. -/
def DurationCurveEntry.parse (j : Json) : Except String DurationCurveEntry := do
  let o ← asObj j
  let _ ← requireClosed DurationCurveEntry.declared o
  let m ← getF o "method" >>= asStr
  let dc ← getF o "duration_curve" >>= DurationCurveData.parse
  pure ⟨m, dc⟩

/-- Declared keys of `DoseRanges`. -/
def DoseRanges.declared : List String := ["threshold", "light", "common", "strong", "heavy"]

/-- Construction of `DoseRanges`. -/
def DoseRanges.parse (j : Json) : Except String DoseRanges := do
  let o ← asObj j
  let _ ← requireClosed DoseRanges.declared o
  let t ← getF o "threshold" >>= asStr
  let l ← getF o "light" >>= asStr
  let c ← getF o "common" >>= asStr
  let s ← getF o "strong" >>= asStr
  let h ← getF o "heavy" >>= asStr
  pure ⟨t, l, c, s, h⟩

/-- Declared keys of `RouteOfAdministration`. -/
def RouteOfAdministration.declared : List String :=
  ["route", "units", "notes", "dose_ranges"]

/-- Construction of `RouteOfAdministration`.  The nested `notes` field
is a plain string with no sentence-count rule. -/
def RouteOfAdministration.parse (j : Json) : Except String RouteOfAdministration := do
  let o ← asObj j
  let _ ← requireClosed RouteOfAdministration.declared o
  let route ← getF o "route" >>= parseRouteToken
  let units ← getF o "units" >>= asStr
  let notes ← getF o "notes" >>= asStr
  let dr ← getF o "dose_ranges" >>= DoseRanges.parse
  pure ⟨route, units, notes, dr⟩

/-- Declared keys of `Dosages`. -/
def Dosages.declared : List String := ["routes_of_administration"]

/-- Construction of `Dosages`. -/
def Dosages.parse (j : Json) : Except String Dosages := do
  let o ← asObj j
  let _ ← requireClosed Dosages.declared o
  let r ← getF o "routes_of_administration" >>= parseArrOf RouteOfAdministration.parse
  pure ⟨r⟩

/-- Declared keys of `DurationSummary`. -/
def DurationSummary.declared : List String :=
  ["total_duration", "onset", "peak", "offset", "after_effects"]

/-- Construction of `DurationSummary`. -/
def DurationSummary.parse (j : Json) : Except String DurationSummary := do
  let o ← asObj j
  let _ ← requireClosed DurationSummary.declared o
  let t ← getF o "total_duration" >>= asStr
  let ons ← getF o "onset" >>= asStr
  let p ← getF o "peak" >>= asStr
  let off ← getF o "offset" >>= asStr
  let a ← getF o "after_effects" >>= asStr
  pure ⟨t, ons, p, off, a⟩

/-- Declared keys of `Interactions` (the source strings). -/
def Interactions.declared : List String := ["dangerous", "unsafe", "caution"]

/-- Construction of `Interactions`. -/
def Interactions.parse (j : Json) : Except String Interactions := do
  let o ← asObj j
  let _ ← requireClosed Interactions.declared o
  let d ← getF o "dangerous" >>= parseArrOf asStr
  let u ← getF o "unsafe" >>= parseArrOf asStr
  let c ← getF o "caution" >>= parseArrOf asStr
  pure ⟨d, u, c⟩

/-- Declared keys of `ToleranceModel`. -/
def ToleranceModel.declared : List String :=
  ["type", "build_rate", "decay_rate", "half_life"]

/-- Construction of `ToleranceModel`: the three rates are
`NonNegativeNumber`s. -/
def ToleranceModel.parse (j : Json) : Except String ToleranceModel := do
  let o ← asObj j
  let _ ← requireClosed ToleranceModel.declared o
  let t ← getF o "type" >>= parseEnum toleranceModelTypeTokens
  let br ← getF o "build_rate" >>= parseNonNegativeNumber
  let dr ← getF o "decay_rate" >>= parseNonNegativeNumber
  let hl ← getF o "half_life" >>= parseNonNegativeNumber
  pure ⟨t, br, dr, hl⟩

/-- Declared keys of `ToleranceTimelinePoint`. -/
def ToleranceTimelinePoint.declared : List String :=
  ["hours", "tolerance_percentage", "confidence"]

/-- Construction of `ToleranceTimelinePoint`: `hours` is a
`NonNegativeNumber`, the other two are `Percentage`s. -/
def ToleranceTimelinePoint.parse (j : Json) : Except String ToleranceTimelinePoint := do
  let o ← asObj j
  let _ ← requireClosed ToleranceTimelinePoint.declared o
  let h ← getF o "hours" >>= parseNonNegativeNumber
  let tp ← getF o "tolerance_percentage" >>= parsePercentage
  let c ← getF o "confidence" >>= parsePercentage
  pure ⟨h, tp, c⟩

/-- Declared keys of `ToleranceBaselinePoint`. -/
def ToleranceBaselinePoint.declared : List String := ["hours", "confidence"]

/-- Construction of `ToleranceBaselinePoint`: `hours` is a plain
`float` in the source, so it carries no range constraint here. -/
def ToleranceBaselinePoint.parse (j : Json) : Except String ToleranceBaselinePoint := do
  let o ← asObj j
  let _ ← requireClosed ToleranceBaselinePoint.declared o
  let h ← getF o "hours" >>= asNum
  let c ← getF o "confidence" >>= parsePercentage
  pure ⟨h, c⟩

/-- Declared keys of `ToleranceBaselines`. -/
def ToleranceBaselines.declared : List String :=
  ["full_tolerance", "half_tolerance", "baseline_tolerance"]

/-- Construction of `ToleranceBaselines`. -/
def ToleranceBaselines.parse (j : Json) : Except String ToleranceBaselines := do
  let o ← asObj j
  let _ ← requireClosed ToleranceBaselines.declared o
  let f ← getF o "full_tolerance" >>= ToleranceBaselinePoint.parse
  let h ← getF o "half_tolerance" >>= ToleranceBaselinePoint.parse
  let b ← getF o "baseline_tolerance" >>= ToleranceBaselinePoint.parse
  pure ⟨f, h, b⟩

/-- Declared keys of `CrossToleranceEntry`. -/
def CrossToleranceEntry.declared : List String := ["substance", "ratio", "confidence"]

/-- Construction of `CrossToleranceEntry`: `ratio` is a `Ratio01`,
`confidence` a `Percentage`. -/
def CrossToleranceEntry.parse (j : Json) : Except String CrossToleranceEntry := do
  let o ← asObj j
  let _ ← requireClosed CrossToleranceEntry.declared o
  let s ← getF o "substance" >>= asStr
  let r ← getF o "ratio" >>= parseRatio01
  let c ← getF o "confidence" >>= parsePercentage
  pure ⟨s, r, c⟩

/-- Declared keys of `ToleranceData`. -/
def ToleranceData.declared : List String :=
  ["model", "timeline", "baselines", "cross_tolerances", "notes", "data_quality"]

/-- Construction of `ToleranceData`.  Its `notes` field is a plain
string with no sentence-count rule. -/
def ToleranceData.parse (j : Json) : Except String ToleranceData := do
  let o ← asObj j
  let _ ← requireClosed ToleranceData.declared o
  let m ← getF o "model" >>= ToleranceModel.parse
  let tl ← getF o "timeline" >>= parseArrOf ToleranceTimelinePoint.parse
  let b ← getF o "baselines" >>= ToleranceBaselines.parse
  let ct ← getF o "cross_tolerances" >>= parseArrOf CrossToleranceEntry.parse
  let n ← getF o "notes" >>= asStr
  let dq ← getF o "data_quality" >>= parseEnum toleranceDataQualityTokens
  pure ⟨m, tl, b, ct, n, dq⟩

/-- Declared keys of `Citation`. -/
def Citation.declared : List String := ["name", "reference"]

/-- Construction of `Citation`. -/
def Citation.parse (j : Json) : Except String Citation := do
  let o ← asObj j
  let _ ← requireClosed Citation.declared o
  let n ← getF o "name" >>= asStr
  let r ← getF o "reference" >>= asStr
  pure ⟨n, r⟩

/-- The top-level `notes` field: a string passed through the
`_notes_min_sentences` validator. -/
def parseNotesField (j : Json) : Except String String := do
  let s ← asStr j
  notes_min_sentences s

/-- Declared keys of `DrugInfo`. -/
def DrugInfo.declared : List String :=
  ["drug_name", "search_url", "chemical_class", "psychoactive_class",
   "dosages", "duration", "duration_curves", "addiction_potential",
   "interactions", "notes", "subjective_effects", "tolerance",
   "half_life", "citations", "categories"]

/-- Construction of the root `DrugInfo` record. -/
def DrugInfo.parse (j : Json) : Except String DrugInfo := do
  let o ← asObj j
  let _ ← requireClosed DrugInfo.declared o
  let dn ← getF o "drug_name" >>= asStr
  let su ← getF o "search_url" >>= parseSearchUrl
  let cc ← getF o "chemical_class" >>= asStr
  let pc ← getF o "psychoactive_class" >>= asStr
  let ds ← getF o "dosages" >>= Dosages.parse
  let du ← getF o "duration" >>= DurationSummary.parse
  let dcs ← getF o "duration_curves" >>= parseArrOf DurationCurveEntry.parse
  let ap ← getF o "addiction_potential" >>= asStr
  let it ← getF o "interactions" >>= Interactions.parse
  let n ← getF o "notes" >>= parseNotesField
  let se ← getF o "subjective_effects" >>= parseArrOf asStr
  let tol ← getF o "tolerance" >>= ToleranceData.parse
  let hl ← getF o "half_life" >>= asStr
  let cit ← getF o "citations" >>= parseArrOf Citation.parse
  let cat ← getF o "categories" >>= parseArrOf (parseEnum categoryEnumTokens)
  pure ⟨dn, su, cc, pc, ds, du, dcs, ap, it, n, se, tol, hl, cit, cat⟩

/-! ## Concrete candidate inputs

A fully populated valid candidate mapping, parametrized by the four
string fields the custom rules and the nested-notes claims vary. -/

/-- Sample `DoseRanges` input. -/
def sampleDoseRanges : Json :=
  .obj [("threshold", .str "5 mg"), ("light", .str "10 mg"),
        ("common", .str "20 mg"), ("strong", .str "40 mg"),
        ("heavy", .str "80 mg")]

/-- Sample `RouteOfAdministration` input with the given nested notes. -/
def sampleRoa (roaNotes : String) : Json :=
  .obj [("route", .str "oral"), ("units", .str "mg"),
        ("notes", .str roaNotes), ("dose_ranges", sampleDoseRanges)]

/-- Sample `DurationRange` input. -/
def sampleDurationRange : Json :=
  .obj [("min", .num 4), ("max", .num 8),
        ("iso", .arr [.str "PT4H", .str "PT8H"]), ("note", .str "typical")]

/-- Sample `DurationPhase` input. -/
def samplePhase : Json :=
  .obj [("start", .num 0), ("end", .num 2),
        ("iso_start", .arr [.str "PT0S"]), ("iso_end", .arr [.str "PT2H"])]

/-- Sample `DurationCurveData` input. -/
def sampleCurveData : Json :=
  .obj [("reference", .str "ref"), ("units", .str "hours"),
        ("total_duration", sampleDurationRange), ("onset", samplePhase),
        ("peak", samplePhase), ("offset", samplePhase),
        ("after_effects", samplePhase)]

/-- Sample `DurationCurveEntry` input. -/
def sampleCurveEntry : Json :=
  .obj [("method", .str "oral"), ("duration_curve", sampleCurveData)]

/-- Sample `ToleranceModel` input. -/
def sampleToleranceModel : Json :=
  .obj [("type", .str "exponential"), ("build_rate", .num 5),
        ("decay_rate", .num 2), ("half_life", .num 24)]

/-- Sample `ToleranceTimelinePoint` input. -/
def sampleTimelinePoint : Json :=
  .obj [("hours", .num 24), ("tolerance_percentage", .num 50),
        ("confidence", .num 80)]

/-- Sample `ToleranceBaselinePoint` input. -/
def sampleBaselinePoint : Json :=
  .obj [("hours", .num 12), ("confidence", .num 90)]

/-- Sample `ToleranceBaselines` input. -/
def sampleBaselines : Json :=
  .obj [("full_tolerance", sampleBaselinePoint),
        ("half_tolerance", sampleBaselinePoint),
        ("baseline_tolerance", sampleBaselinePoint)]

/-- Sample `CrossToleranceEntry` input. -/
def sampleCrossTol : Json :=
  .obj [("substance", .str "LSD"), ("ratio", .num 1),
        ("confidence", .num 70)]

/-- Sample `ToleranceData` input with the given nested notes. -/
def sampleToleranceData (tolNotes : String) : Json :=
  .obj [("model", sampleToleranceModel),
        ("timeline", .arr [sampleTimelinePoint]),
        ("baselines", sampleBaselines),
        ("cross_tolerances", .arr [sampleCrossTol]),
        ("notes", .str tolNotes), ("data_quality", .str "medium")]

/-- Fully populated candidate mapping for `DrugInfo`, parametrized by
`search_url`, top-level `notes`, and the two nested notes strings. -/
def mkInput (url notes roaNotes tolNotes : String) : Json :=
  .obj [("drug_name", .str "Example"),
        ("search_url", .str url),
        ("chemical_class", .str "phenethylamine"),
        ("psychoactive_class", .str "stimulant"),
        ("dosages", .obj [("routes_of_administration", .arr [sampleRoa roaNotes])]),
        ("duration", .obj [("total_duration", .str "4-8 h"), ("onset", .str "30 min"),
                           ("peak", .str "2 h"), ("offset", .str "2 h"),
                           ("after_effects", .str "4 h")]),
        ("duration_curves", .arr [sampleCurveEntry]),
        ("addiction_potential", .str "moderate"),
        ("interactions", .obj [("dangerous", .arr [.str "MAOIs"]),
                               ("unsafe", .arr [.str "tramadol"]),
                               ("caution", .arr [.str "alcohol"])]),
        ("notes", .str notes),
        ("subjective_effects", .arr [.str "euphoria"]),
        ("tolerance", sampleToleranceData tolNotes),
        ("half_life", .str "10 hours"),
        ("citations", .arr [.obj [("name", .str "src"),
                                  ("reference", .str "https://example.org/ref")]]),
        ("categories", .arr [.str "stimulant"])]

/-- The end-to-end sample: every field constraint satisfied. -/
def sampleInput : Json :=
  mkInput "https://example.com/drug" "One. Two. Three." "user reports" "builds fast"

example : isOkE (DrugInfo.parse sampleInput) = true := by decide

/-! ## Inversion and evaluation lemmas for the validation primitives -/

/-- Bind on a success reduces to the continuation. -/
theorem bind_okl {α β : Type} (a : α) (f : α → Except String β) :
    (Except.ok a : Except String α) >>= f = f a := rfl

/-- Bind on an error short-circuits. -/
theorem bind_errl {α β : Type} (e : String) (f : α → Except String β) :
    (Except.error e : Except String α) >>= f = .error e := rfl

/-- Inversion of a successful bind. -/
theorem bindE_ok {α β : Type} {e : Except String α} {f : α → Except String β} {b : β}
    (h : (e >>= f) = .ok b) : ∃ a, e = .ok a ∧ f a = .ok b := by
  cases e with
  | ok a => exact ⟨a, rfl, h⟩
  | error s => exact Except.noConfusion h

/-- A computation succeeds exactly when it returns some value. -/
theorem isOkE_true_iff {α : Type} {e : Except String α} :
    isOkE e = true ↔ ∃ a, e = .ok a := by
  cases e <;> simp [isOkE]

/-- A computation fails exactly when it returns some error. -/
theorem isOkE_false_iff {α : Type} {e : Except String α} :
    isOkE e = false ↔ ∃ s, e = .error s := by
  cases e <;> simp [isOkE]

/-- Inversion of `getF`. -/
theorem getF_ok {o : List (String × Json)} {k : String} {j : Json}
    (h : getF o k = .ok j) : lookupJ o k = some j := by
  unfold getF at h
  cases hl : lookupJ o k <;> rw [hl] at h
  · exact Except.noConfusion h
  · injection h with h; rw [h]

/-- `getF` on a present key. -/
theorem getF_of_lookup {o : List (String × Json)} {k : String} {j : Json}
    (h : lookupJ o k = some j) : getF o k = .ok j := by
  unfold getF; rw [h]

/-- Inversion of `requireClosed`: every present key is declared. -/
theorem requireClosed_ok {declared : List String} {o : List (String × Json)} {u : Unit}
    (h : requireClosed declared o = .ok u) :
    ∀ kv ∈ o, declared.contains kv.1 = true := by
  unfold requireClosed at h
  by_cases hall : o.all (fun kv => declared.contains kv.1) = true
  · exact fun kv hkv => List.all_eq_true.mp hall kv hkv
  · rw [if_neg (by simpa using hall)] at h
    exact Except.noConfusion h

/-- `requireClosed` succeeds on a closed object. -/
theorem requireClosed_of_all {declared : List String} {o : List (String × Json)}
    (h : ∀ kv ∈ o, declared.contains kv.1 = true) :
    requireClosed declared o = .ok () := by
  unfold requireClosed
  rw [if_pos (List.all_eq_true.mpr h)]

/-- Inversion of `asStr`. -/
theorem asStr_ok {j : Json} {s : String} (h : asStr j = .ok s) : j = .str s := by
  cases j <;> first
    | exact Except.noConfusion h
    | (injection h with h; rw [h])

/-- Inversion of `asNum`. -/
theorem asNum_ok {j : Json} {q : Rat} (h : asNum j = .ok q) : j = .num q := by
  cases j <;> first
    | exact Except.noConfusion h
    | (injection h with h; rw [h])

/-- Inversion of `asArr`. -/
theorem asArr_ok {j : Json} {a : List Json} (h : asArr j = .ok a) : j = .arr a := by
  cases j <;> first
    | exact Except.noConfusion h
    | (injection h with h; rw [h])

/-- Inversion of `asObj`. -/
theorem asObj_ok {j : Json} {o : List (String × Json)} (h : asObj j = .ok o) :
    j = .obj o := by
  cases j <;> first
    | exact Except.noConfusion h
    | (injection h with h; rw [h])

/-- Evaluation of `asStr` on a string. -/
theorem asStr_str (s : String) : asStr (.str s) = .ok s := rfl

/-- Evaluation of `asNum` on a number. -/
theorem asNum_num (q : Rat) : asNum (.num q) = .ok q := rfl

/-- Evaluation of `asArr` on an array. -/
theorem asArr_arr (a : List Json) : asArr (.arr a) = .ok a := rfl

/-- Evaluation of `asObj` on an object. -/
theorem asObj_obj (o : List (String × Json)) : asObj (.obj o) = .ok o := rfl

/-- Inversion of `parsePercentage`: the accepted value is the input
number and lies in [0, 100]. -/
theorem parsePercentage_ok {j : Json} {q : Rat} (h : parsePercentage j = .ok q) :
    j = .num q ∧ 0 ≤ q ∧ q ≤ 100 := by
  unfold parsePercentage at h
  obtain ⟨q0, hq0, h⟩ := bindE_ok h
  have hj := asNum_ok hq0
  by_cases hc : 0 ≤ q0 ∧ q0 ≤ 100
  · rw [if_pos hc] at h
    injection h with h
    subst h; exact ⟨hj, hc⟩
  · rw [if_neg hc] at h
    exact Except.noConfusion h

/-- Evaluation of `parsePercentage` on an in-range number. -/
theorem parsePercentage_of_range {q : Rat} (h1 : 0 ≤ q) (h2 : q ≤ 100) :
    parsePercentage (.num q) = .ok q := by
  unfold parsePercentage
  rw [asNum_num, bind_okl, if_pos ⟨h1, h2⟩]
  rfl

/-- Inversion of `parseNonNegativeNumber`. -/
theorem parseNonNegativeNumber_ok {j : Json} {q : Rat}
    (h : parseNonNegativeNumber j = .ok q) : j = .num q ∧ 0 ≤ q := by
  unfold parseNonNegativeNumber at h
  obtain ⟨q0, hq0, h⟩ := bindE_ok h
  have hj := asNum_ok hq0
  by_cases hc : 0 ≤ q0
  · rw [if_pos hc] at h
    injection h with h
    subst h; exact ⟨hj, hc⟩
  · rw [if_neg hc] at h
    exact Except.noConfusion h

/-- Evaluation of `parseNonNegativeNumber` on a non-negative number. -/
theorem parseNonNegativeNumber_of_range {q : Rat} (h1 : 0 ≤ q) :
    parseNonNegativeNumber (.num q) = .ok q := by
  unfold parseNonNegativeNumber
  rw [asNum_num, bind_okl, if_pos h1]
  rfl

/-- Inversion of `parseRatio01`. -/
theorem parseRatio01_ok {j : Json} {q : Rat} (h : parseRatio01 j = .ok q) :
    j = .num q ∧ 0 ≤ q ∧ q ≤ 1 := by
  unfold parseRatio01 at h
  obtain ⟨q0, hq0, h⟩ := bindE_ok h
  have hj := asNum_ok hq0
  by_cases hc : 0 ≤ q0 ∧ q0 ≤ 1
  · rw [if_pos hc] at h
    injection h with h
    subst h; exact ⟨hj, hc⟩
  · rw [if_neg hc] at h
    exact Except.noConfusion h

/-- Evaluation of `parseRatio01` on an in-range number. -/
theorem parseRatio01_of_range {q : Rat} (h1 : 0 ≤ q) (h2 : q ≤ 1) :
    parseRatio01 (.num q) = .ok q := by
  unfold parseRatio01
  rw [asNum_num, bind_okl, if_pos ⟨h1, h2⟩]
  rfl

/-- Inversion of `parseEnum`. -/
theorem parseEnum_ok {tokens : List String} {j : Json} {s : String}
    (h : parseEnum tokens j = .ok s) : j = .str s ∧ tokens.contains s = true := by
  unfold parseEnum at h
  obtain ⟨s0, hs0, h⟩ := bindE_ok h
  have hj := asStr_ok hs0
  by_cases hc : tokens.contains s0 = true
  · rw [if_pos hc] at h
    injection h with h
    subst h; exact ⟨hj, hc⟩
  · rw [if_neg hc] at h
    exact Except.noConfusion h

/-- Evaluation of `parseEnum` on a declared token. -/
theorem parseEnum_of_mem {tokens : List String} {s : String}
    (h : tokens.contains s = true) : parseEnum tokens (.str s) = .ok s := by
  unfold parseEnum
  rw [asStr_str, bind_okl, if_pos h]
  rfl

/-- Inversion of `parseIsoString`. -/
theorem parseIsoString_ok {j : Json} {s : String} (h : parseIsoString j = .ok s) :
    j = .str s ∧ matchISODuration s = true := by
  unfold parseIsoString at h
  obtain ⟨s0, hs0, h⟩ := bindE_ok h
  have hj := asStr_ok hs0
  by_cases hc : matchISODuration s0 = true
  · rw [if_pos hc] at h
    injection h with h
    subst h; exact ⟨hj, hc⟩
  · rw [if_neg hc] at h
    exact Except.noConfusion h

/-- Evaluation of `parseIsoString` on a matching string. -/
theorem parseIsoString_of_match {s : String} (h : matchISODuration s = true) :
    parseIsoString (.str s) = .ok s := by
  unfold parseIsoString
  rw [asStr_str, bind_okl, if_pos h]
  rfl

/-- Inversion of `parseRouteToken`. -/
theorem parseRouteToken_ok {j : Json} {s : String} (h : parseRouteToken j = .ok s) :
    j = .str s ∧ alphaOnly s = true := by
  unfold parseRouteToken at h
  obtain ⟨s0, hs0, h⟩ := bindE_ok h
  have hj := asStr_ok hs0
  by_cases hc : alphaOnly s0 = true
  · rw [if_pos hc] at h
    injection h with h
    subst h; exact ⟨hj, hc⟩
  · rw [if_neg hc] at h
    exact Except.noConfusion h

/-- Evaluation of `parseRouteToken` on a matching string. -/
theorem parseRouteToken_of_match {s : String} (h : alphaOnly s = true) :
    parseRouteToken (.str s) = .ok s := by
  unfold parseRouteToken
  rw [asStr_str, bind_okl, if_pos h]
  rfl

/-- Inversion of `asStr` composed with `notes_min_sentences`. -/
theorem notes_min_sentences_ok {v w : String} (h : notes_min_sentences v = .ok w) :
    w = v ∧ 3 ≤ (sentencesOf v).length := by
  unfold notes_min_sentences at h
  by_cases hc : (sentencesOf v).length < 3
  · rw [if_pos hc] at h
    exact Except.noConfusion h
  · rw [if_neg hc] at h
    injection h with h
    exact ⟨h.symm, Nat.le_of_not_lt hc⟩

/-- `notes_min_sentences` succeeds exactly on 3 or more kept segments. -/
theorem notes_min_sentences_isOk (v : String) :
    isOkE (notes_min_sentences v) = true ↔ 3 ≤ (sentencesOf v).length := by
  unfold notes_min_sentences
  by_cases hc : (sentencesOf v).length < 3
  · rw [if_pos hc]
    simp [isOkE, Nat.not_le_of_lt hc]
  · rw [if_neg hc]
    simp [isOkE, Nat.le_of_not_lt hc]

/-- `notes_min_sentences` returns its input on success. -/
theorem notes_min_sentences_of_le {v : String} (h : 3 ≤ (sentencesOf v).length) :
    notes_min_sentences v = .ok v := by
  unfold notes_min_sentences
  rw [if_neg (Nat.not_lt_of_le h)]

/-! ## List and field combinator lemmas -/

/-- Soundness of `parseListWith` relative to an element relation. -/
theorem parseListWith_sound {α : Type} {p : Json → Except String α} {R : α → Json → Prop}
    (hp : ∀ {x : Json} {y : α}, p x = .ok y → R y x) :
    ∀ {l : List Json} {ys : List α}, parseListWith p l = .ok ys → List.Forall₂ R ys l := by
  intro l
  induction l with
  | nil =>
    intro ys h
    simp only [parseListWith] at h
    injection h with h
    subst h
    exact List.Forall₂.nil
  | cons x xs ih =>
    intro ys h
    simp only [parseListWith] at h
    obtain ⟨y, hy, h⟩ := bindE_ok h
    obtain ⟨ys2, hys2, h⟩ := bindE_ok h
    injection h with h
    subst h
    exact List.Forall₂.cons (hp hy) (ih hys2)

/-- `parseListWith` succeeds when every element parses. -/
theorem parseListWith_of_all {α : Type} {p : Json → Except String α} {q : Json → Bool}
    (hp : ∀ x, q x = true → ∃ y, p x = .ok y) :
    ∀ {a : List Json}, a.all q = true → ∃ ys, parseListWith p a = .ok ys := by
  intro a
  induction a with
  | nil => exact fun _ => ⟨[], rfl⟩
  | cons x xs ih =>
    intro h
    rw [List.all_cons, Bool.and_eq_true] at h
    obtain ⟨y, hy⟩ := hp x h.1
    obtain ⟨ys, hys⟩ := ih h.2
    refine ⟨y :: ys, ?_⟩
    simp only [parseListWith]
    rw [hy, bind_okl, hys, bind_okl]
    rfl

/-- Inversion of `parseArrOf`. -/
theorem parseArrOf_ok {α : Type} {p : Json → Except String α} {j : Json} {ys : List α}
    (h : parseArrOf p j = .ok ys) : ∃ a, j = .arr a ∧ parseListWith p a = .ok ys := by
  unfold parseArrOf at h
  obtain ⟨a, ha, h⟩ := bindE_ok h
  exact ⟨a, asArr_ok ha, h⟩

/-- Evaluation of `parseArrOf` on an array. -/
theorem parseArrOf_arr {α : Type} (p : Json → Except String α) (a : List Json) :
    parseArrOf p (.arr a) = parseListWith p a := by
  unfold parseArrOf
  rw [asArr_arr, bind_okl]

/-- Generic soundness of one field step: a successful
`getF o k >>= p` pins the input value under `k` and its relation to
the stored value. -/
theorem fieldSound {α : Type} {p : Json → Except String α} {R : α → Json → Prop}
    (hp : ∀ {x : Json} {y : α}, p x = .ok y → R y x)
    {o : List (String × Json)} {k : String} {y : α}
    (h : (getF o k >>= p) = .ok y) : ∃ v, lookupJ o k = some v ∧ R y v := by
  obtain ⟨j, hj, h2⟩ := bindE_ok h
  exact ⟨j, getF_ok hj, hp h2⟩

/-- Generic evaluation of one field step from a present key. -/
theorem fieldEval {α : Type} {p : Json → Except String α} {o : List (String × Json)}
    {k : String} {v : Json} {y : α}
    (hl : lookupJ o k = some v) (hp : p v = .ok y) : (getF o k >>= p) = .ok y := by
  rw [getF_of_lookup hl, bind_okl]
  exact hp

/-- Soundness of a plain string field. -/
theorem strField_ok {o : List (String × Json)} {k : String} {s : String}
    (h : (getF o k >>= asStr) = .ok s) : lookupJ o k = some (.str s) := by
  obtain ⟨v, hv, hr⟩ := fieldSound (R := fun y x => x = Json.str y) (fun hh => asStr_ok hh) h
  rw [hr] at hv
  exact hv

/-- Soundness of a plain number field. -/
theorem numField_ok {o : List (String × Json)} {k : String} {q : Rat}
    (h : (getF o k >>= asNum) = .ok q) : lookupJ o k = some (.num q) := by
  obtain ⟨v, hv, hr⟩ := fieldSound (R := fun y x => x = Json.num y) (fun hh => asNum_ok hh) h
  rw [hr] at hv
  exact hv

/-- Soundness of a `Percentage` field. -/
theorem percField_ok {o : List (String × Json)} {k : String} {q : Rat}
    (h : (getF o k >>= parsePercentage) = .ok q) :
    lookupJ o k = some (.num q) ∧ 0 ≤ q ∧ q ≤ 100 := by
  obtain ⟨v, hv, hr⟩ := fieldSound
    (R := fun y x => x = Json.num y ∧ 0 ≤ y ∧ y ≤ 100)
    (fun hh => parsePercentage_ok hh) h
  rw [hr.1] at hv
  exact ⟨hv, hr.2⟩

/-- Soundness of a `NonNegativeNumber` field. -/
theorem nonnegField_ok {o : List (String × Json)} {k : String} {q : Rat}
    (h : (getF o k >>= parseNonNegativeNumber) = .ok q) :
    lookupJ o k = some (.num q) ∧ 0 ≤ q := by
  obtain ⟨v, hv, hr⟩ := fieldSound
    (R := fun y x => x = Json.num y ∧ 0 ≤ y)
    (fun hh => parseNonNegativeNumber_ok hh) h
  rw [hr.1] at hv
  exact ⟨hv, hr.2⟩

/-- Soundness of a `Ratio01` field. -/
theorem ratioField_ok {o : List (String × Json)} {k : String} {q : Rat}
    (h : (getF o k >>= parseRatio01) = .ok q) :
    lookupJ o k = some (.num q) ∧ 0 ≤ q ∧ q ≤ 1 := by
  obtain ⟨v, hv, hr⟩ := fieldSound
    (R := fun y x => x = Json.num y ∧ 0 ≤ y ∧ y ≤ 1)
    (fun hh => parseRatio01_ok hh) h
  rw [hr.1] at hv
  exact ⟨hv, hr.2⟩

/-- Soundness of an enum field. -/
theorem enumField_ok {tokens : List String} {o : List (String × Json)} {k : String}
    {s : String} (h : (getF o k >>= parseEnum tokens) = .ok s) :
    lookupJ o k = some (.str s) ∧ tokens.contains s = true := by
  obtain ⟨v, hv, hr⟩ := fieldSound
    (R := fun y x => x = Json.str y ∧ tokens.contains y = true)
    (fun hh => parseEnum_ok hh) h
  rw [hr.1] at hv
  exact ⟨hv, hr.2⟩

/-- Soundness of an array field relative to an element relation. -/
theorem arrField_ok {α : Type} {p : Json → Except String α} {R : α → Json → Prop}
    (hp : ∀ {x : Json} {y : α}, p x = .ok y → R y x)
    {o : List (String × Json)} {k : String} {ys : List α}
    (h : (getF o k >>= parseArrOf p) = .ok ys) :
    ∃ a, lookupJ o k = some (.arr a) ∧ List.Forall₂ R ys a := by
  obtain ⟨v, hv, hr⟩ := fieldSound
    (R := fun y x => ∃ a, x = Json.arr a ∧ parseListWith p a = .ok y)
    (fun hh => parseArrOf_ok hh) h
  obtain ⟨a, ha, hl⟩ := hr
  rw [ha] at hv
  exact ⟨a, hv, parseListWith_sound hp hl⟩

/-- Soundness of a nested-model field relative to a sub-relation. -/
theorem subField_ok {α : Type} {p : Json → Except String α} {R : α → Json → Prop}
    (hp : ∀ {x : Json} {y : α}, p x = .ok y → R y x)
    {o : List (String × Json)} {k : String} {y : α}
    (h : (getF o k >>= p) = .ok y) : ∃ v, lookupJ o k = some v ∧ R y v :=
  fieldSound hp h

/-! ## Substring, URL and validator lemmas -/

/-- `containsSub` is the infix relation. -/
theorem containsSub_infix_iff {pat : List Char} :
    ∀ {l : List Char}, containsSub pat l = true ↔ pat <:+: l := by
  intro l
  induction l with
  | nil =>
    simp only [containsSub]
    constructor
    · intro h
      have : pat = [] := by
        cases pat with
        | nil => rfl
        | cons c cs => exact absurd h (by simp [List.isEmpty])
      rw [this]
    · intro h
      have : pat = [] := List.eq_nil_of_infix_nil h
      rw [this]
      rfl
  | cons c cs ih =>
    simp only [containsSub, Bool.or_eq_true]
    rw [List.infix_cons_iff, ih, List.isPrefixOf_iff_prefix]

/-- The banned substring occurs in the lowercased host only if it
occurs in the lowercased whole URL string (the parsed host is a
contiguous segment of the URL string). -/
theorem lowerContainsBanned_urlHost {u : String}
    (h : lowerContainsBanned (urlHost u) = true) : lowerContainsBanned u = true := by
  unfold lowerContainsBanned at h ⊢
  rw [containsSub_infix_iff] at h ⊢
  refine h.trans ?_
  unfold urlHost
  cases hs : schemeRest u with
  | none => simp
  | some rest =>
    have hinfix : (rest.takeWhile (fun c => !hostEnd c)) <:+: u.data := by
      have h1 : (rest.takeWhile (fun c => !hostEnd c)) <+: rest :=
        List.takeWhile_prefix _
      have h2 : rest <:+: u.data := by
        unfold schemeRest at hs
        split_ifs at hs with h8 h7
        · injection hs with hs
          rw [← hs]
          exact (List.drop_suffix 8 u.data).isInfix
        · injection hs with hs
          rw [← hs]
          exact (List.drop_suffix 7 u.data).isInfix
      exact (h1.isInfix).trans h2
    exact hinfix.map Char.toLower

/-- The case-sensitive banned-substring occurrence implies the
case-insensitive one. -/
theorem lowerContainsBanned_of_raw {u : String}
    (h : containsSub bannedDomain u.data = true) : lowerContainsBanned u = true := by
  unfold lowerContainsBanned
  rw [containsSub_infix_iff] at h ⊢
  have := h.map Char.toLower
  rw [show bannedDomain.map Char.toLower = bannedDomain from by decide] at this
  exact this

/-- Success of the banned-domain validator, as a Boolean equation on
the two containment tests. -/
theorem no_psychonautwiki_isOk (host v : String) :
    isOkE (no_psychonautwiki host v) =
      (!lowerContainsBanned host && !lowerContainsBanned v) := by
  unfold no_psychonautwiki
  by_cases he : host = ""
  · subst he
    rw [show lowerContainsBanned "" = false from by decide]
    cases hv : lowerContainsBanned v <;> simp [isOkE]
  · have hne : (host != "") = true := bne_iff_ne.mpr he
    rw [hne]
    cases hh : lowerContainsBanned host with
    | true => simp [isOkE]
    | false => cases hv : lowerContainsBanned v <;> simp [isOkE]

/-- Inversion of a successful banned-domain validation. -/
theorem no_psychonautwiki_ok {host v w : String}
    (h : no_psychonautwiki host v = .ok w) :
    w = v ∧ lowerContainsBanned v = false := by
  unfold no_psychonautwiki at h
  by_cases h1 : ((host != "") && lowerContainsBanned host) = true
  · rw [if_pos h1] at h
    exact Except.noConfusion h
  · rw [if_neg h1] at h
    by_cases h2 : lowerContainsBanned v = true
    · rw [if_pos h2] at h
      exact Except.noConfusion h
    · rw [if_neg h2] at h
      injection h with h
      exact ⟨h.symm, by simpa using h2⟩

/-- The banned-domain validator passes a clean URL unchanged. -/
theorem no_psychonautwiki_of_clean {host v : String}
    (hh : lowerContainsBanned host = false) (hv : lowerContainsBanned v = false) :
    no_psychonautwiki host v = .ok v := by
  unfold no_psychonautwiki
  rw [hh, hv]
  simp

/-- Inversion of a successful `search_url` validation: the stored
value is the input string, it is a well-formed URL, and it does not
contain the banned domain in any letter case. -/
theorem parseSearchUrl_ok {j : Json} {u : String} (h : parseSearchUrl j = .ok u) :
    j = .str u ∧ isWellFormedHttpUrl u = true ∧ lowerContainsBanned u = false := by
  unfold parseSearchUrl at h
  obtain ⟨s, hs, h⟩ := bindE_ok h
  have hj := asStr_ok hs
  obtain ⟨u2, hu2, h⟩ := bindE_ok h
  unfold parseHttpUrl at hu2
  by_cases hw : isWellFormedHttpUrl s = true
  · rw [if_pos hw] at hu2
    injection hu2 with hu2
    subst hu2
    by_cases hc : containsSub bannedDomain s.data = true
    · rw [if_pos hc] at h
      exact Except.noConfusion h
    · rw [if_neg hc] at h
      obtain ⟨hwv, hnb⟩ := no_psychonautwiki_ok h
      subst hwv
      exact ⟨hj, hw, hnb⟩
  · rw [if_neg hw] at hu2
    exact Except.noConfusion hu2

/-- Evaluation of `parseSearchUrl` on a clean well-formed URL. -/
theorem parseSearchUrl_of_valid {u : String} (hw : isWellFormedHttpUrl u = true)
    (hnb : lowerContainsBanned u = false) : parseSearchUrl (.str u) = .ok u := by
  unfold parseSearchUrl
  rw [asStr_str, bind_okl]
  unfold parseHttpUrl
  rw [if_pos hw, bind_okl]
  have hcs : containsSub bannedDomain u.data = false := by
    cases hcs : containsSub bannedDomain u.data with
    | false => rfl
    | true => rw [lowerContainsBanned_of_raw hcs] at hnb; exact Bool.noConfusion hnb
  rw [hcs]
  have hhost : lowerContainsBanned (urlHost u) = false := by
    cases hh : lowerContainsBanned (urlHost u) with
    | false => rfl
    | true => rw [lowerContainsBanned_urlHost hh] at hnb; exact Bool.noConfusion hnb
  simpa using no_psychonautwiki_of_clean hhost hnb

/-- A banned URL string never passes `parseSearchUrl`. -/
theorem parseSearchUrl_banned {u : String} (h : lowerContainsBanned u = true) :
    ∃ e, parseSearchUrl (.str u) = .error e := by
  cases hp : parseSearchUrl (.str u) with
  | error e => exact ⟨e, rfl⟩
  | ok w =>
    obtain ⟨_, _, hnb⟩ := parseSearchUrl_ok hp
    have : w = u := by
      have := (parseSearchUrl_ok hp).1
      injection this with this
      rw [this]
    rw [this] at hnb
    rw [h] at hnb
    exact Bool.noConfusion hnb

/-! ## Spec-side validity predicates

`Valid…` reads the spec's field-constraint list directly off the
candidate mapping: exact declared key set, each field present with the
declared type, numeric bounds, enum membership, pattern matches, and
the two custom rules.  These are deliberately phrased against the
input (not through the construction functions) so that the refinement
claims compare two independent readings. -/

/-- The field holds some JSON string. -/
def isStrB : Json → Bool
  | .str _ => true
  | _ => false

/-- The field holds some JSON number. -/
def isNumB : Json → Bool
  | .num _ => true
  | _ => false

/-- The field holds a number satisfying `f`. -/
def numPred (f : Rat → Bool) : Json → Bool
  | .num q => f q
  | _ => false

/-- The field holds a string satisfying `f`. -/
def strPred (f : String → Bool) : Json → Bool
  | .str s => f s
  | _ => false

/-- The field holds an array whose members all satisfy `f`. -/
def arrAll (f : Json → Bool) : Json → Bool
  | .arr a => a.all f
  | _ => false

/-- Key `k` is present and its value satisfies `f`. -/
def fieldB (o : List (String × Json)) (k : String) (f : Json → Bool) : Bool :=
  match lookupJ o k with
  | some v => f v
  | none => false

/-- Every present key is declared. -/
def keysAllDeclared (declared : List String) (o : List (String × Json)) : Bool :=
  o.all (fun kv => declared.contains kv.1)

/-- Inversion of `fieldB`. -/
theorem fieldB_ok {o : List (String × Json)} {k : String} {f : Json → Bool}
    (h : fieldB o k f = true) : ∃ v, lookupJ o k = some v ∧ f v = true := by
  unfold fieldB at h
  cases hl : lookupJ o k <;> rw [hl] at h
  · exact Bool.noConfusion h
  · exact ⟨_, rfl, h⟩

/-- Inversion of `isStrB`. -/
theorem isStrB_ok {v : Json} (h : isStrB v = true) : ∃ s, v = .str s := by
  cases v <;> first
    | exact Bool.noConfusion h
    | exact ⟨_, rfl⟩

/-- Inversion of `isNumB`. -/
theorem isNumB_ok {v : Json} (h : isNumB v = true) : ∃ q, v = .num q := by
  cases v <;> first
    | exact Bool.noConfusion h
    | exact ⟨_, rfl⟩

/-- Inversion of `strPred`. -/
theorem strPred_ok {f : String → Bool} {v : Json} (h : strPred f v = true) :
    ∃ s, v = .str s ∧ f s = true := by
  cases v <;> first
    | exact Bool.noConfusion h
    | exact ⟨_, rfl, h⟩

/-- Inversion of `numPred`. -/
theorem numPred_ok {f : Rat → Bool} {v : Json} (h : numPred f v = true) :
    ∃ q, v = .num q ∧ f q = true := by
  cases v <;> first
    | exact Bool.noConfusion h
    | exact ⟨_, rfl, h⟩

/-- Inversion of `arrAll`. -/
theorem arrAll_ok {f : Json → Bool} {v : Json} (h : arrAll f v = true) :
    ∃ a, v = .arr a ∧ a.all f = true := by
  cases v <;> first
    | exact Bool.noConfusion h
    | exact ⟨_, rfl, h⟩

/-- Spec-side validity of a `DurationRange` input. -/
def ValidDurationRange : Json → Bool
  | .obj o =>
    keysAllDeclared DurationRange.declared o &&
    fieldB o "min" isNumB && fieldB o "max" isNumB &&
    fieldB o "iso" (arrAll (strPred matchISODuration)) &&
    fieldB o "note" isStrB
  | _ => false

/-- Spec-side validity of a `DurationPhase` input. -/
def ValidDurationPhase : Json → Bool
  | .obj o =>
    keysAllDeclared DurationPhase.declared o &&
    fieldB o "start" isNumB && fieldB o "end" isNumB &&
    fieldB o "iso_start" (arrAll (strPred matchISODuration)) &&
    fieldB o "iso_end" (arrAll (strPred matchISODuration))
  | _ => false

/-- Spec-side validity of a `DurationCurveData` input. -/
def ValidDurationCurveData : Json → Bool
  | .obj o =>
    keysAllDeclared DurationCurveData.declared o &&
    fieldB o "reference" isStrB &&
    fieldB o "units" (strPred durationUnitsTokens.contains) &&
    fieldB o "total_duration" ValidDurationRange &&
    fieldB o "onset" ValidDurationPhase &&
    fieldB o "peak" ValidDurationPhase &&
    fieldB o "offset" ValidDurationPhase &&
    fieldB o "after_effects" ValidDurationPhase
  | _ => false

/-- Spec-side validity of a `DurationCurveEntry` input. -/
def ValidDurationCurveEntry : Json → Bool
  | .obj o =>
    keysAllDeclared DurationCurveEntry.declared o &&
    fieldB o "method" isStrB &&
    fieldB o "duration_curve" ValidDurationCurveData
  | _ => false

/-- Spec-side validity of a `DoseRanges` input. -/
def ValidDoseRanges : Json → Bool
  | .obj o =>
    keysAllDeclared DoseRanges.declared o &&
    fieldB o "threshold" isStrB && fieldB o "light" isStrB &&
    fieldB o "common" isStrB && fieldB o "strong" isStrB &&
    fieldB o "heavy" isStrB
  | _ => false

/-- Spec-side validity of a `RouteOfAdministration` input. -/
def ValidRouteOfAdministration : Json → Bool
  | .obj o =>
    keysAllDeclared RouteOfAdministration.declared o &&
    fieldB o "route" (strPred alphaOnly) &&
    fieldB o "units" isStrB && fieldB o "notes" isStrB &&
    fieldB o "dose_ranges" ValidDoseRanges
  | _ => false

/-- Spec-side validity of a `Dosages` input. -/
def ValidDosages : Json → Bool
  | .obj o =>
    keysAllDeclared Dosages.declared o &&
    fieldB o "routes_of_administration" (arrAll ValidRouteOfAdministration)
  | _ => false

/-- Spec-side validity of a `DurationSummary` input. -/
def ValidDurationSummary : Json → Bool
  | .obj o =>
    keysAllDeclared DurationSummary.declared o &&
    fieldB o "total_duration" isStrB && fieldB o "onset" isStrB &&
    fieldB o "peak" isStrB && fieldB o "offset" isStrB &&
    fieldB o "after_effects" isStrB
  | _ => false

/-- Spec-side validity of an `Interactions` input. -/
def ValidInteractions : Json → Bool
  | .obj o =>
    keysAllDeclared Interactions.declared o &&
    fieldB o "dangerous" (arrAll isStrB) &&
    fieldB o "unsafe" (arrAll isStrB) &&
    fieldB o "caution" (arrAll isStrB)
  | _ => false

/-- Spec-side validity of a `ToleranceModel` input. -/
def ValidToleranceModel : Json → Bool
  | .obj o =>
    keysAllDeclared ToleranceModel.declared o &&
    fieldB o "type" (strPred toleranceModelTypeTokens.contains) &&
    fieldB o "build_rate" (numPred (fun q => decide (0 ≤ q))) &&
    fieldB o "decay_rate" (numPred (fun q => decide (0 ≤ q))) &&
    fieldB o "half_life" (numPred (fun q => decide (0 ≤ q)))
  | _ => false

/-- Spec-side validity of a `ToleranceTimelinePoint` input. -/
def ValidToleranceTimelinePoint : Json → Bool
  | .obj o =>
    keysAllDeclared ToleranceTimelinePoint.declared o &&
    fieldB o "hours" (numPred (fun q => decide (0 ≤ q))) &&
    fieldB o "tolerance_percentage" (numPred (fun q => decide (0 ≤ q ∧ q ≤ 100))) &&
    fieldB o "confidence" (numPred (fun q => decide (0 ≤ q ∧ q ≤ 100)))
  | _ => false

/-- Spec-side validity of a `ToleranceBaselinePoint` input: `hours` is
an unconstrained number in the source. -/
def ValidToleranceBaselinePoint : Json → Bool
  | .obj o =>
    keysAllDeclared ToleranceBaselinePoint.declared o &&
    fieldB o "hours" isNumB &&
    fieldB o "confidence" (numPred (fun q => decide (0 ≤ q ∧ q ≤ 100)))
  | _ => false

/-- Spec-side validity of a `ToleranceBaselines` input. -/
def ValidToleranceBaselines : Json → Bool
  | .obj o =>
    keysAllDeclared ToleranceBaselines.declared o &&
    fieldB o "full_tolerance" ValidToleranceBaselinePoint &&
    fieldB o "half_tolerance" ValidToleranceBaselinePoint &&
    fieldB o "baseline_tolerance" ValidToleranceBaselinePoint
  | _ => false

/-- Spec-side validity of a `CrossToleranceEntry` input. -/
def ValidCrossToleranceEntry : Json → Bool
  | .obj o =>
    keysAllDeclared CrossToleranceEntry.declared o &&
    fieldB o "substance" isStrB &&
    fieldB o "ratio" (numPred (fun q => decide (0 ≤ q ∧ q ≤ 1))) &&
    fieldB o "confidence" (numPred (fun q => decide (0 ≤ q ∧ q ≤ 100)))
  | _ => false

/-- Spec-side validity of a `ToleranceData` input. -/
def ValidToleranceData : Json → Bool
  | .obj o =>
    keysAllDeclared ToleranceData.declared o &&
    fieldB o "model" ValidToleranceModel &&
    fieldB o "timeline" (arrAll ValidToleranceTimelinePoint) &&
    fieldB o "baselines" ValidToleranceBaselines &&
    fieldB o "cross_tolerances" (arrAll ValidCrossToleranceEntry) &&
    fieldB o "notes" isStrB &&
    fieldB o "data_quality" (strPred toleranceDataQualityTokens.contains)
  | _ => false

/-- Spec-side validity of a `Citation` input. -/
def ValidCitation : Json → Bool
  | .obj o =>
    keysAllDeclared Citation.declared o &&
    fieldB o "name" isStrB && fieldB o "reference" isStrB
  | _ => false

/-- Spec-side validity of a full `DrugInfo` candidate mapping. -/
def ValidDrugInfo : Json → Bool
  | .obj o =>
    keysAllDeclared DrugInfo.declared o &&
    fieldB o "drug_name" isStrB &&
    fieldB o "search_url"
      (strPred (fun s => isWellFormedHttpUrl s && !lowerContainsBanned s)) &&
    fieldB o "chemical_class" isStrB &&
    fieldB o "psychoactive_class" isStrB &&
    fieldB o "dosages" ValidDosages &&
    fieldB o "duration" ValidDurationSummary &&
    fieldB o "duration_curves" (arrAll ValidDurationCurveEntry) &&
    fieldB o "addiction_potential" isStrB &&
    fieldB o "interactions" ValidInteractions &&
    fieldB o "notes" (strPred (fun s => decide (3 ≤ (sentencesOf s).length))) &&
    fieldB o "subjective_effects" (arrAll isStrB) &&
    fieldB o "tolerance" ValidToleranceData &&
    fieldB o "half_life" isStrB &&
    fieldB o "citations" (arrAll ValidCitation) &&
    fieldB o "categories" (arrAll (strPred categoryEnumTokens.contains))
  | _ => false

example : ValidDrugInfo sampleInput = true := by decide

/-! ## Match relations

`Match… r j` says the constructed record `r` carries exactly the
values of the candidate mapping `j`: the input is a closed object and
each declared key holds the corresponding field of `r` (plus the
constraint facts the construction enforced on the way). -/

/-- Elementwise relation for arrays of plain strings. -/
def StrEq (s : String) (x : Json) : Prop := x = .str s

/-- Elementwise relation for ISO-pattern strings. -/
def IsoStrEq (s : String) (x : Json) : Prop :=
  x = .str s ∧ matchISODuration s = true

/-- Elementwise relation for category tokens. -/
def CatStrEq (s : String) (x : Json) : Prop :=
  x = .str s ∧ categoryEnumTokens.contains s = true

/-- Match for `DurationRange`. -/
def MatchDurationRange (r : DurationRange) (j : Json) : Prop :=
  ∃ o, j = .obj o ∧ (∀ kv ∈ o, DurationRange.declared.contains kv.1 = true) ∧
    lookupJ o "min" = some (.num r.min) ∧
    lookupJ o "max" = some (.num r.max) ∧
    (∃ a, lookupJ o "iso" = some (.arr a) ∧ List.Forall₂ IsoStrEq r.iso a) ∧
    lookupJ o "note" = some (.str r.note)

/-- Match for `DurationPhase`. -/
def MatchDurationPhase (r : DurationPhase) (j : Json) : Prop :=
  ∃ o, j = .obj o ∧ (∀ kv ∈ o, DurationPhase.declared.contains kv.1 = true) ∧
    lookupJ o "start" = some (.num r.start) ∧
    lookupJ o "end" = some (.num r.end_) ∧
    (∃ a, lookupJ o "iso_start" = some (.arr a) ∧ List.Forall₂ IsoStrEq r.iso_start a) ∧
    (∃ a, lookupJ o "iso_end" = some (.arr a) ∧ List.Forall₂ IsoStrEq r.iso_end a)

/-- Match for `DurationCurveData`. -/
def MatchDurationCurveData (r : DurationCurveData) (j : Json) : Prop :=
  ∃ o, j = .obj o ∧ (∀ kv ∈ o, DurationCurveData.declared.contains kv.1 = true) ∧
    lookupJ o "reference" = some (.str r.reference) ∧
    (lookupJ o "units" = some (.str r.units) ∧
      durationUnitsTokens.contains r.units = true) ∧
    (∃ v, lookupJ o "total_duration" = some v ∧
      MatchDurationRange r.total_duration v) ∧
    (∃ v, lookupJ o "onset" = some v ∧ MatchDurationPhase r.onset v) ∧
    (∃ v, lookupJ o "peak" = some v ∧ MatchDurationPhase r.peak v) ∧
    (∃ v, lookupJ o "offset" = some v ∧ MatchDurationPhase r.offset v) ∧
    (∃ v, lookupJ o "after_effects" = some v ∧
      MatchDurationPhase r.after_effects v)

/-- Match for `DurationCurveEntry`. -/
def MatchDurationCurveEntry (r : DurationCurveEntry) (j : Json) : Prop :=
  ∃ o, j = .obj o ∧ (∀ kv ∈ o, DurationCurveEntry.declared.contains kv.1 = true) ∧
    lookupJ o "method" = some (.str r.method) ∧
    (∃ v, lookupJ o "duration_curve" = some v ∧
      MatchDurationCurveData r.duration_curve v)

/-- Match for `DoseRanges`. -/
def MatchDoseRanges (r : DoseRanges) (j : Json) : Prop :=
  ∃ o, j = .obj o ∧ (∀ kv ∈ o, DoseRanges.declared.contains kv.1 = true) ∧
    lookupJ o "threshold" = some (.str r.threshold) ∧
    lookupJ o "light" = some (.str r.light) ∧
    lookupJ o "common" = some (.str r.common) ∧
    lookupJ o "strong" = some (.str r.strong) ∧
    lookupJ o "heavy" = some (.str r.heavy)

/-- Match for `RouteOfAdministration`. -/
def MatchRouteOfAdministration (r : RouteOfAdministration) (j : Json) : Prop :=
  ∃ o, j = .obj o ∧
    (∀ kv ∈ o, RouteOfAdministration.declared.contains kv.1 = true) ∧
    (lookupJ o "route" = some (.str r.route) ∧ alphaOnly r.route = true) ∧
    lookupJ o "units" = some (.str r.units) ∧
    lookupJ o "notes" = some (.str r.notes) ∧
    (∃ v, lookupJ o "dose_ranges" = some v ∧ MatchDoseRanges r.dose_ranges v)

/-- Match for `Dosages`. -/
def MatchDosages (r : Dosages) (j : Json) : Prop :=
  ∃ o, j = .obj o ∧ (∀ kv ∈ o, Dosages.declared.contains kv.1 = true) ∧
    (∃ a, lookupJ o "routes_of_administration" = some (.arr a) ∧
      List.Forall₂ MatchRouteOfAdministration r.routes_of_administration a)

/-- Match for `DurationSummary`. -/
def MatchDurationSummary (r : DurationSummary) (j : Json) : Prop :=
  ∃ o, j = .obj o ∧ (∀ kv ∈ o, DurationSummary.declared.contains kv.1 = true) ∧
    lookupJ o "total_duration" = some (.str r.total_duration) ∧
    lookupJ o "onset" = some (.str r.onset) ∧
    lookupJ o "peak" = some (.str r.peak) ∧
    lookupJ o "offset" = some (.str r.offset) ∧
    lookupJ o "after_effects" = some (.str r.after_effects)

/-- Match for `Interactions` (the input keys are the source strings;
the record field `not_safe` carries the `unsafe` input list). -/
def MatchInteractions (r : Interactions) (j : Json) : Prop :=
  ∃ o, j = .obj o ∧ (∀ kv ∈ o, Interactions.declared.contains kv.1 = true) ∧
    (∃ a, lookupJ o "dangerous" = some (.arr a) ∧
      List.Forall₂ StrEq r.dangerous a) ∧
    (∃ a, lookupJ o "unsafe" = some (.arr a) ∧
      List.Forall₂ StrEq r.not_safe a) ∧
    (∃ a, lookupJ o "caution" = some (.arr a) ∧ List.Forall₂ StrEq r.caution a)

/-- Match for `ToleranceModel`, carrying the non-negativity facts. -/
def MatchToleranceModel (r : ToleranceModel) (j : Json) : Prop :=
  ∃ o, j = .obj o ∧ (∀ kv ∈ o, ToleranceModel.declared.contains kv.1 = true) ∧
    (lookupJ o "type" = some (.str r.type) ∧
      toleranceModelTypeTokens.contains r.type = true) ∧
    (lookupJ o "build_rate" = some (.num r.build_rate) ∧ 0 ≤ r.build_rate) ∧
    (lookupJ o "decay_rate" = some (.num r.decay_rate) ∧ 0 ≤ r.decay_rate) ∧
    (lookupJ o "half_life" = some (.num r.half_life) ∧ 0 ≤ r.half_life)

/-- Match for `ToleranceTimelinePoint`, carrying the range facts. -/
def MatchToleranceTimelinePoint (r : ToleranceTimelinePoint) (j : Json) : Prop :=
  ∃ o, j = .obj o ∧
    (∀ kv ∈ o, ToleranceTimelinePoint.declared.contains kv.1 = true) ∧
    (lookupJ o "hours" = some (.num r.hours) ∧ 0 ≤ r.hours) ∧
    (lookupJ o "tolerance_percentage" = some (.num r.tolerance_percentage) ∧
      0 ≤ r.tolerance_percentage ∧ r.tolerance_percentage ≤ 100) ∧
    (lookupJ o "confidence" = some (.num r.confidence) ∧
      0 ≤ r.confidence ∧ r.confidence ≤ 100)

/-- Match for `ToleranceBaselinePoint`: no range fact for `hours`,
which is a plain `float` in the source. -/
def MatchToleranceBaselinePoint (r : ToleranceBaselinePoint) (j : Json) : Prop :=
  ∃ o, j = .obj o ∧
    (∀ kv ∈ o, ToleranceBaselinePoint.declared.contains kv.1 = true) ∧
    lookupJ o "hours" = some (.num r.hours) ∧
    (lookupJ o "confidence" = some (.num r.confidence) ∧
      0 ≤ r.confidence ∧ r.confidence ≤ 100)

/-- Match for `ToleranceBaselines`. -/
def MatchToleranceBaselines (r : ToleranceBaselines) (j : Json) : Prop :=
  ∃ o, j = .obj o ∧
    (∀ kv ∈ o, ToleranceBaselines.declared.contains kv.1 = true) ∧
    (∃ v, lookupJ o "full_tolerance" = some v ∧
      MatchToleranceBaselinePoint r.full_tolerance v) ∧
    (∃ v, lookupJ o "half_tolerance" = some v ∧
      MatchToleranceBaselinePoint r.half_tolerance v) ∧
    (∃ v, lookupJ o "baseline_tolerance" = some v ∧
      MatchToleranceBaselinePoint r.baseline_tolerance v)

/-- Match for `CrossToleranceEntry`, carrying the range facts. -/
def MatchCrossToleranceEntry (r : CrossToleranceEntry) (j : Json) : Prop :=
  ∃ o, j = .obj o ∧
    (∀ kv ∈ o, CrossToleranceEntry.declared.contains kv.1 = true) ∧
    lookupJ o "substance" = some (.str r.substance) ∧
    (lookupJ o "ratio" = some (.num r.ratio) ∧ 0 ≤ r.ratio ∧ r.ratio ≤ 1) ∧
    (lookupJ o "confidence" = some (.num r.confidence) ∧
      0 ≤ r.confidence ∧ r.confidence ≤ 100)

/-- Match for `ToleranceData`. -/
def MatchToleranceData (r : ToleranceData) (j : Json) : Prop :=
  ∃ o, j = .obj o ∧ (∀ kv ∈ o, ToleranceData.declared.contains kv.1 = true) ∧
    (∃ v, lookupJ o "model" = some v ∧ MatchToleranceModel r.model v) ∧
    (∃ a, lookupJ o "timeline" = some (.arr a) ∧
      List.Forall₂ MatchToleranceTimelinePoint r.timeline a) ∧
    (∃ v, lookupJ o "baselines" = some v ∧
      MatchToleranceBaselines r.baselines v) ∧
    (∃ a, lookupJ o "cross_tolerances" = some (.arr a) ∧
      List.Forall₂ MatchCrossToleranceEntry r.cross_tolerances a) ∧
    lookupJ o "notes" = some (.str r.notes) ∧
    (lookupJ o "data_quality" = some (.str r.data_quality) ∧
      toleranceDataQualityTokens.contains r.data_quality = true)

/-- Match for `Citation`. -/
def MatchCitation (r : Citation) (j : Json) : Prop :=
  ∃ o, j = .obj o ∧ (∀ kv ∈ o, Citation.declared.contains kv.1 = true) ∧
    lookupJ o "name" = some (.str r.name) ∧
    lookupJ o "reference" = some (.str r.reference)

/-- Match for the root record: every stored field equals the supplied
input value (in particular the stored `search_url` is exactly the
supplied URL string), plus the constraint facts construction checked. -/
def MatchDrugInfo (r : DrugInfo) (j : Json) : Prop :=
  ∃ o, j = .obj o ∧ (∀ kv ∈ o, DrugInfo.declared.contains kv.1 = true) ∧
    lookupJ o "drug_name" = some (.str r.drug_name) ∧
    (lookupJ o "search_url" = some (.str r.search_url) ∧
      isWellFormedHttpUrl r.search_url = true ∧
      lowerContainsBanned r.search_url = false) ∧
    lookupJ o "chemical_class" = some (.str r.chemical_class) ∧
    lookupJ o "psychoactive_class" = some (.str r.psychoactive_class) ∧
    (∃ v, lookupJ o "dosages" = some v ∧ MatchDosages r.dosages v) ∧
    (∃ v, lookupJ o "duration" = some v ∧ MatchDurationSummary r.duration v) ∧
    (∃ a, lookupJ o "duration_curves" = some (.arr a) ∧
      List.Forall₂ MatchDurationCurveEntry r.duration_curves a) ∧
    lookupJ o "addiction_potential" = some (.str r.addiction_potential) ∧
    (∃ v, lookupJ o "interactions" = some v ∧ MatchInteractions r.interactions v) ∧
    (lookupJ o "notes" = some (.str r.notes) ∧ 3 ≤ (sentencesOf r.notes).length) ∧
    (∃ a, lookupJ o "subjective_effects" = some (.arr a) ∧
      List.Forall₂ StrEq r.subjective_effects a) ∧
    (∃ v, lookupJ o "tolerance" = some v ∧ MatchToleranceData r.tolerance v) ∧
    lookupJ o "half_life" = some (.str r.half_life) ∧
    (∃ a, lookupJ o "citations" = some (.arr a) ∧
      List.Forall₂ MatchCitation r.citations a) ∧
    (∃ a, lookupJ o "categories" = some (.arr a) ∧
      List.Forall₂ CatStrEq r.categories a)

/-! ## Soundness: a successful construction matches its input -/

/-- Soundness of the `search_url` field step. -/
theorem urlField_ok {o : List (String × Json)} {k : String} {su : String}
    (h : (getF o k >>= parseSearchUrl) = .ok su) :
    lookupJ o k = some (.str su) ∧ isWellFormedHttpUrl su = true ∧
      lowerContainsBanned su = false := by
  obtain ⟨v, hv, hr⟩ := fieldSound
    (R := fun y x => x = Json.str y ∧ isWellFormedHttpUrl y = true ∧
      lowerContainsBanned y = false)
    (fun hh => parseSearchUrl_ok hh) h
  rw [hr.1] at hv
  exact ⟨hv, hr.2⟩

/-- Inversion of the top-level notes field validation. -/
theorem parseNotesField_ok {j : Json} {n : String} (h : parseNotesField j = .ok n) :
    j = .str n ∧ 3 ≤ (sentencesOf n).length := by
  unfold parseNotesField at h
  obtain ⟨s, hs, h⟩ := bindE_ok h
  obtain ⟨hnv, hlen⟩ := notes_min_sentences_ok h
  subst hnv
  exact ⟨asStr_ok hs, hlen⟩

/-- Soundness of the notes field step. -/
theorem notesField_ok {o : List (String × Json)} {k : String} {n : String}
    (h : (getF o k >>= parseNotesField) = .ok n) :
    lookupJ o k = some (.str n) ∧ 3 ≤ (sentencesOf n).length := by
  obtain ⟨v, hv, hr⟩ := fieldSound
    (R := fun y x => x = Json.str y ∧ 3 ≤ (sentencesOf y).length)
    (fun hh => parseNotesField_ok hh) h
  rw [hr.1] at hv
  exact ⟨hv, hr.2⟩

/-- Soundness of `DoseRanges.parse`. -/
theorem DoseRanges_parse_sound {j : Json} {r : DoseRanges}
    (h : DoseRanges.parse j = .ok r) : MatchDoseRanges r j := by
  unfold DoseRanges.parse at h
  obtain ⟨o, ho, h⟩ := bindE_ok h
  obtain ⟨u0, hcl, h⟩ := bindE_ok h
  obtain ⟨t, ht, h⟩ := bindE_ok h
  obtain ⟨l, hl, h⟩ := bindE_ok h
  obtain ⟨c, hc, h⟩ := bindE_ok h
  obtain ⟨s, hs, h⟩ := bindE_ok h
  obtain ⟨hv, hhv, h⟩ := bindE_ok h
  injection h with h
  subst h
  exact ⟨o, asObj_ok ho, requireClosed_ok hcl, strField_ok ht, strField_ok hl,
    strField_ok hc, strField_ok hs, strField_ok hhv⟩

/-- Soundness of `DurationRange.parse`. -/
theorem DurationRange_parse_sound {j : Json} {r : DurationRange}
    (h : DurationRange.parse j = .ok r) : MatchDurationRange r j := by
  unfold DurationRange.parse at h
  obtain ⟨o, ho, h⟩ := bindE_ok h
  obtain ⟨u0, hcl, h⟩ := bindE_ok h
  obtain ⟨mn, hmn, h⟩ := bindE_ok h
  obtain ⟨mx, hmx, h⟩ := bindE_ok h
  obtain ⟨iso, hiso, h⟩ := bindE_ok h
  obtain ⟨note, hnote, h⟩ := bindE_ok h
  injection h with h
  subst h
  exact ⟨o, asObj_ok ho, requireClosed_ok hcl, numField_ok hmn, numField_ok hmx,
    arrField_ok (R := IsoStrEq) (fun hh => parseIsoString_ok hh) hiso,
    strField_ok hnote⟩

/-- Soundness of `DurationPhase.parse`. -/
theorem DurationPhase_parse_sound {j : Json} {r : DurationPhase}
    (h : DurationPhase.parse j = .ok r) : MatchDurationPhase r j := by
  unfold DurationPhase.parse at h
  obtain ⟨o, ho, h⟩ := bindE_ok h
  obtain ⟨u0, hcl, h⟩ := bindE_ok h
  obtain ⟨st, hst, h⟩ := bindE_ok h
  obtain ⟨en, hen, h⟩ := bindE_ok h
  obtain ⟨isoS, hisoS, h⟩ := bindE_ok h
  obtain ⟨isoE, hisoE, h⟩ := bindE_ok h
  injection h with h
  subst h
  exact ⟨o, asObj_ok ho, requireClosed_ok hcl, numField_ok hst, numField_ok hen,
    arrField_ok (R := IsoStrEq) (fun hh => parseIsoString_ok hh) hisoS,
    arrField_ok (R := IsoStrEq) (fun hh => parseIsoString_ok hh) hisoE⟩

/-- Soundness of `DurationSummary.parse`. -/
theorem DurationSummary_parse_sound {j : Json} {r : DurationSummary}
    (h : DurationSummary.parse j = .ok r) : MatchDurationSummary r j := by
  unfold DurationSummary.parse at h
  obtain ⟨o, ho, h⟩ := bindE_ok h
  obtain ⟨u0, hcl, h⟩ := bindE_ok h
  obtain ⟨t, ht, h⟩ := bindE_ok h
  obtain ⟨ons, hons, h⟩ := bindE_ok h
  obtain ⟨p, hp, h⟩ := bindE_ok h
  obtain ⟨off, hoff, h⟩ := bindE_ok h
  obtain ⟨a, ha, h⟩ := bindE_ok h
  injection h with h
  subst h
  exact ⟨o, asObj_ok ho, requireClosed_ok hcl, strField_ok ht, strField_ok hons,
    strField_ok hp, strField_ok hoff, strField_ok ha⟩

/-- Soundness of `Interactions.parse`. -/
theorem Interactions_parse_sound {j : Json} {r : Interactions}
    (h : Interactions.parse j = .ok r) : MatchInteractions r j := by
  unfold Interactions.parse at h
  obtain ⟨o, ho, h⟩ := bindE_ok h
  obtain ⟨u0, hcl, h⟩ := bindE_ok h
  obtain ⟨d, hd, h⟩ := bindE_ok h
  obtain ⟨u, hu, h⟩ := bindE_ok h
  obtain ⟨c, hc, h⟩ := bindE_ok h
  injection h with h
  subst h
  exact ⟨o, asObj_ok ho, requireClosed_ok hcl,
    arrField_ok (R := StrEq) (fun hh => asStr_ok hh) hd,
    arrField_ok (R := StrEq) (fun hh => asStr_ok hh) hu,
    arrField_ok (R := StrEq) (fun hh => asStr_ok hh) hc⟩

/-- Soundness of `Citation.parse`. -/
theorem Citation_parse_sound {j : Json} {r : Citation}
    (h : Citation.parse j = .ok r) : MatchCitation r j := by
  unfold Citation.parse at h
  obtain ⟨o, ho, h⟩ := bindE_ok h
  obtain ⟨u0, hcl, h⟩ := bindE_ok h
  obtain ⟨n, hn, h⟩ := bindE_ok h
  obtain ⟨ref, href, h⟩ := bindE_ok h
  injection h with h
  subst h
  exact ⟨o, asObj_ok ho, requireClosed_ok hcl, strField_ok hn, strField_ok href⟩

/-- Soundness of `ToleranceModel.parse`: the three rates are stored as
given and non-negative. -/
theorem ToleranceModel_parse_sound {j : Json} {r : ToleranceModel}
    (h : ToleranceModel.parse j = .ok r) : MatchToleranceModel r j := by
  unfold ToleranceModel.parse at h
  obtain ⟨o, ho, h⟩ := bindE_ok h
  obtain ⟨u0, hcl, h⟩ := bindE_ok h
  obtain ⟨t, ht, h⟩ := bindE_ok h
  obtain ⟨br, hbr, h⟩ := bindE_ok h
  obtain ⟨dr, hdr, h⟩ := bindE_ok h
  obtain ⟨hl, hhl, h⟩ := bindE_ok h
  injection h with h
  subst h
  exact ⟨o, asObj_ok ho, requireClosed_ok hcl, enumField_ok ht,
    nonnegField_ok hbr, nonnegField_ok hdr, nonnegField_ok hhl⟩

/-- Soundness of `ToleranceTimelinePoint.parse`. -/
theorem ToleranceTimelinePoint_parse_sound {j : Json} {r : ToleranceTimelinePoint}
    (h : ToleranceTimelinePoint.parse j = .ok r) : MatchToleranceTimelinePoint r j := by
  unfold ToleranceTimelinePoint.parse at h
  obtain ⟨o, ho, h⟩ := bindE_ok h
  obtain ⟨u0, hcl, h⟩ := bindE_ok h
  obtain ⟨hh, hhh, h⟩ := bindE_ok h
  obtain ⟨tp, htp, h⟩ := bindE_ok h
  obtain ⟨c, hc, h⟩ := bindE_ok h
  injection h with h
  subst h
  exact ⟨o, asObj_ok ho, requireClosed_ok hcl, nonnegField_ok hhh,
    percField_ok htp, percField_ok hc⟩

/-- Soundness of `ToleranceBaselinePoint.parse`: `hours` is stored as
given with no range constraint. -/
theorem ToleranceBaselinePoint_parse_sound {j : Json} {r : ToleranceBaselinePoint}
    (h : ToleranceBaselinePoint.parse j = .ok r) : MatchToleranceBaselinePoint r j := by
  unfold ToleranceBaselinePoint.parse at h
  obtain ⟨o, ho, h⟩ := bindE_ok h
  obtain ⟨u0, hcl, h⟩ := bindE_ok h
  obtain ⟨hh, hhh, h⟩ := bindE_ok h
  obtain ⟨c, hc, h⟩ := bindE_ok h
  injection h with h
  subst h
  exact ⟨o, asObj_ok ho, requireClosed_ok hcl, numField_ok hhh, percField_ok hc⟩

/-- Soundness of `CrossToleranceEntry.parse`. -/
theorem CrossToleranceEntry_parse_sound {j : Json} {r : CrossToleranceEntry}
    (h : CrossToleranceEntry.parse j = .ok r) : MatchCrossToleranceEntry r j := by
  unfold CrossToleranceEntry.parse at h
  obtain ⟨o, ho, h⟩ := bindE_ok h
  obtain ⟨u0, hcl, h⟩ := bindE_ok h
  obtain ⟨s, hs, h⟩ := bindE_ok h
  obtain ⟨ra, hra, h⟩ := bindE_ok h
  obtain ⟨c, hc, h⟩ := bindE_ok h
  injection h with h
  subst h
  exact ⟨o, asObj_ok ho, requireClosed_ok hcl, strField_ok hs,
    ratioField_ok hra, percField_ok hc⟩

/-- Soundness of `RouteOfAdministration.parse`. -/
theorem RouteOfAdministration_parse_sound {j : Json} {r : RouteOfAdministration}
    (h : RouteOfAdministration.parse j = .ok r) : MatchRouteOfAdministration r j := by
  unfold RouteOfAdministration.parse at h
  obtain ⟨o, ho, h⟩ := bindE_ok h
  obtain ⟨u0, hcl, h⟩ := bindE_ok h
  obtain ⟨route, hroute, h⟩ := bindE_ok h
  obtain ⟨units, hunits, h⟩ := bindE_ok h
  obtain ⟨notes, hnotes, h⟩ := bindE_ok h
  obtain ⟨dr, hdr, h⟩ := bindE_ok h
  injection h with h
  subst h
  refine ⟨o, asObj_ok ho, requireClosed_ok hcl, ?_, strField_ok hunits,
    strField_ok hnotes, subField_ok (R := MatchDoseRanges) (fun hh => DoseRanges_parse_sound hh) hdr⟩
  obtain ⟨v, hv, hr⟩ := fieldSound
    (R := fun y x => x = Json.str y ∧ alphaOnly y = true)
    (fun hh => parseRouteToken_ok hh) hroute
  rw [hr.1] at hv
  exact ⟨hv, hr.2⟩

/-- Soundness of `Dosages.parse`. -/
theorem Dosages_parse_sound {j : Json} {r : Dosages}
    (h : Dosages.parse j = .ok r) : MatchDosages r j := by
  unfold Dosages.parse at h
  obtain ⟨o, ho, h⟩ := bindE_ok h
  obtain ⟨u0, hcl, h⟩ := bindE_ok h
  obtain ⟨routes, hroutes, h⟩ := bindE_ok h
  injection h with h
  subst h
  exact ⟨o, asObj_ok ho, requireClosed_ok hcl,
    arrField_ok (R := MatchRouteOfAdministration)
      (fun hh => RouteOfAdministration_parse_sound hh) hroutes⟩

/-- Soundness of `DurationCurveData.parse`. -/
theorem DurationCurveData_parse_sound {j : Json} {r : DurationCurveData}
    (h : DurationCurveData.parse j = .ok r) : MatchDurationCurveData r j := by
  unfold DurationCurveData.parse at h
  obtain ⟨o, ho, h⟩ := bindE_ok h
  obtain ⟨u0, hcl, h⟩ := bindE_ok h
  obtain ⟨ref, href, h⟩ := bindE_ok h
  obtain ⟨units, hunits, h⟩ := bindE_ok h
  obtain ⟨total, htotal, h⟩ := bindE_ok h
  obtain ⟨ons, hons, h⟩ := bindE_ok h
  obtain ⟨peak, hpeak, h⟩ := bindE_ok h
  obtain ⟨off, hoff, h⟩ := bindE_ok h
  obtain ⟨after, hafter, h⟩ := bindE_ok h
  injection h with h
  subst h
  exact ⟨o, asObj_ok ho, requireClosed_ok hcl, strField_ok href,
    enumField_ok hunits,
    subField_ok (R := MatchDurationRange) (fun hh => DurationRange_parse_sound hh) htotal,
    subField_ok (R := MatchDurationPhase) (fun hh => DurationPhase_parse_sound hh) hons,
    subField_ok (R := MatchDurationPhase) (fun hh => DurationPhase_parse_sound hh) hpeak,
    subField_ok (R := MatchDurationPhase) (fun hh => DurationPhase_parse_sound hh) hoff,
    subField_ok (R := MatchDurationPhase) (fun hh => DurationPhase_parse_sound hh) hafter⟩

/-- Soundness of `DurationCurveEntry.parse`. -/
theorem DurationCurveEntry_parse_sound {j : Json} {r : DurationCurveEntry}
    (h : DurationCurveEntry.parse j = .ok r) : MatchDurationCurveEntry r j := by
  unfold DurationCurveEntry.parse at h
  obtain ⟨o, ho, h⟩ := bindE_ok h
  obtain ⟨u0, hcl, h⟩ := bindE_ok h
  obtain ⟨m, hm, h⟩ := bindE_ok h
  obtain ⟨dc, hdc, h⟩ := bindE_ok h
  injection h with h
  subst h
  exact ⟨o, asObj_ok ho, requireClosed_ok hcl, strField_ok hm,
    subField_ok (R := MatchDurationCurveData) (fun hh => DurationCurveData_parse_sound hh) hdc⟩

/-- Soundness of `ToleranceBaselines.parse`. -/
theorem ToleranceBaselines_parse_sound {j : Json} {r : ToleranceBaselines}
    (h : ToleranceBaselines.parse j = .ok r) : MatchToleranceBaselines r j := by
  unfold ToleranceBaselines.parse at h
  obtain ⟨o, ho, h⟩ := bindE_ok h
  obtain ⟨u0, hcl, h⟩ := bindE_ok h
  obtain ⟨f, hf, h⟩ := bindE_ok h
  obtain ⟨ha, hha, h⟩ := bindE_ok h
  obtain ⟨b, hb, h⟩ := bindE_ok h
  injection h with h
  subst h
  exact ⟨o, asObj_ok ho, requireClosed_ok hcl,
    subField_ok (R := MatchToleranceBaselinePoint) (fun hh => ToleranceBaselinePoint_parse_sound hh) hf,
    subField_ok (R := MatchToleranceBaselinePoint) (fun hh => ToleranceBaselinePoint_parse_sound hh) hha,
    subField_ok (R := MatchToleranceBaselinePoint) (fun hh => ToleranceBaselinePoint_parse_sound hh) hb⟩

/-- Soundness of `ToleranceData.parse`. -/
theorem ToleranceData_parse_sound {j : Json} {r : ToleranceData}
    (h : ToleranceData.parse j = .ok r) : MatchToleranceData r j := by
  unfold ToleranceData.parse at h
  obtain ⟨o, ho, h⟩ := bindE_ok h
  obtain ⟨u0, hcl, h⟩ := bindE_ok h
  obtain ⟨m, hm, h⟩ := bindE_ok h
  obtain ⟨tl, htl, h⟩ := bindE_ok h
  obtain ⟨b, hb, h⟩ := bindE_ok h
  obtain ⟨ct, hct, h⟩ := bindE_ok h
  obtain ⟨n, hn, h⟩ := bindE_ok h
  obtain ⟨dq, hdq, h⟩ := bindE_ok h
  injection h with h
  subst h
  exact ⟨o, asObj_ok ho, requireClosed_ok hcl,
    subField_ok (R := MatchToleranceModel) (fun hh => ToleranceModel_parse_sound hh) hm,
    arrField_ok (R := MatchToleranceTimelinePoint)
      (fun hh => ToleranceTimelinePoint_parse_sound hh) htl,
    subField_ok (R := MatchToleranceBaselines) (fun hh => ToleranceBaselines_parse_sound hh) hb,
    arrField_ok (R := MatchCrossToleranceEntry)
      (fun hh => CrossToleranceEntry_parse_sound hh) hct,
    strField_ok hn, enumField_ok hdq⟩

/-- Soundness of `DrugInfo.parse`: a successful construction stores
every input value unchanged and satisfies every declared constraint. -/
theorem DrugInfo_parse_sound {j : Json} {r : DrugInfo}
    (h : DrugInfo.parse j = .ok r) : MatchDrugInfo r j := by
  unfold DrugInfo.parse at h
  obtain ⟨o, ho, h⟩ := bindE_ok h
  obtain ⟨u0, hcl, h⟩ := bindE_ok h
  obtain ⟨dn, hdn, h⟩ := bindE_ok h
  obtain ⟨su, hsu, h⟩ := bindE_ok h
  obtain ⟨cc, hcc, h⟩ := bindE_ok h
  obtain ⟨pc, hpc, h⟩ := bindE_ok h
  obtain ⟨ds, hds, h⟩ := bindE_ok h
  obtain ⟨du, hdu, h⟩ := bindE_ok h
  obtain ⟨dcs, hdcs, h⟩ := bindE_ok h
  obtain ⟨ap, hap, h⟩ := bindE_ok h
  obtain ⟨it, hit, h⟩ := bindE_ok h
  obtain ⟨n, hn, h⟩ := bindE_ok h
  obtain ⟨se, hse, h⟩ := bindE_ok h
  obtain ⟨tol, htol, h⟩ := bindE_ok h
  obtain ⟨hl, hhl, h⟩ := bindE_ok h
  obtain ⟨cit, hcit, h⟩ := bindE_ok h
  obtain ⟨cat, hcat, h⟩ := bindE_ok h
  injection h with h
  subst h
  exact ⟨o, asObj_ok ho, requireClosed_ok hcl, strField_ok hdn,
    urlField_ok hsu, strField_ok hcc, strField_ok hpc,
    subField_ok (R := MatchDosages) (fun hh => Dosages_parse_sound hh) hds,
    subField_ok (R := MatchDurationSummary) (fun hh => DurationSummary_parse_sound hh) hdu,
    arrField_ok (R := MatchDurationCurveEntry)
      (fun hh => DurationCurveEntry_parse_sound hh) hdcs,
    strField_ok hap,
    subField_ok (R := MatchInteractions) (fun hh => Interactions_parse_sound hh) hit,
    notesField_ok hn,
    arrField_ok (R := StrEq) (fun hh => asStr_ok hh) hse,
    subField_ok (R := MatchToleranceData) (fun hh => ToleranceData_parse_sound hh) htol,
    strField_ok hhl,
    arrField_ok (R := MatchCitation) (fun hh => Citation_parse_sound hh) hcit,
    arrField_ok (R := CatStrEq)
      (fun hh => parseEnum_ok hh) hcat⟩

/-! ## Completeness: a spec-valid input constructs successfully -/

/-- From `keysAllDeclared` to the elementwise closure fact. -/
theorem keysAllDeclared_ok {d : List String} {o : List (String × Json)}
    (h : keysAllDeclared d o = true) : ∀ kv ∈ o, d.contains kv.1 = true :=
  List.all_eq_true.mp h

/-- A valid field parses: generic composition through `getF`. -/
theorem fieldC {o : List (String × Json)} {k : String} {q : Json → Bool}
    {α : Type} {p : Json → Except String α}
    (hp : ∀ x, q x = true → ∃ y, p x = .ok y)
    (h : fieldB o k q = true) : ∃ y, (getF o k >>= p) = .ok y := by
  obtain ⟨v, hl, hv⟩ := fieldB_ok h
  obtain ⟨y, hy⟩ := hp v hv
  exact ⟨y, fieldEval hl hy⟩

/-- A string-valued input parses as `str`. -/
theorem exStr : ∀ x, isStrB x = true → ∃ y, asStr x = .ok y := by
  intro x hx
  obtain ⟨s, rfl⟩ := isStrB_ok hx
  exact ⟨s, rfl⟩

/-- A number-valued input parses as `float`. -/
theorem exNum : ∀ x, isNumB x = true → ∃ y, asNum x = .ok y := by
  intro x hx
  obtain ⟨q, rfl⟩ := isNumB_ok hx
  exact ⟨q, rfl⟩

/-- An in-range input parses as `Percentage`. -/
theorem exPerc : ∀ x, numPred (fun q => decide (0 ≤ q ∧ q ≤ 100)) x = true →
    ∃ y, parsePercentage x = .ok y := by
  intro x hx
  obtain ⟨q, rfl, hq⟩ := numPred_ok hx
  have hq2 := of_decide_eq_true hq
  exact ⟨q, parsePercentage_of_range hq2.1 hq2.2⟩

/-- A non-negative input parses as `NonNegativeNumber`. -/
theorem exNonneg : ∀ x, numPred (fun q => decide (0 ≤ q)) x = true →
    ∃ y, parseNonNegativeNumber x = .ok y := by
  intro x hx
  obtain ⟨q, rfl, hq⟩ := numPred_ok hx
  exact ⟨q, parseNonNegativeNumber_of_range (of_decide_eq_true hq)⟩

/-- An in-range input parses as `Ratio01`. -/
theorem exRatio : ∀ x, numPred (fun q => decide (0 ≤ q ∧ q ≤ 1)) x = true →
    ∃ y, parseRatio01 x = .ok y := by
  intro x hx
  obtain ⟨q, rfl, hq⟩ := numPred_ok hx
  have hq2 := of_decide_eq_true hq
  exact ⟨q, parseRatio01_of_range hq2.1 hq2.2⟩

/-- A declared token parses as its enum. -/
theorem exEnum {tokens : List String} : ∀ x, strPred tokens.contains x = true →
    ∃ y, parseEnum tokens x = .ok y := by
  intro x hx
  obtain ⟨s, rfl, hs⟩ := strPred_ok hx
  exact ⟨s, parseEnum_of_mem hs⟩

/-- A pattern-matching string parses as an ISO duration entry. -/
theorem exIso : ∀ x, strPred matchISODuration x = true →
    ∃ y, parseIsoString x = .ok y := by
  intro x hx
  obtain ⟨s, rfl, hs⟩ := strPred_ok hx
  exact ⟨s, parseIsoString_of_match hs⟩

/-- A letters-only string parses as a route token. -/
theorem exRoute : ∀ x, strPred alphaOnly x = true →
    ∃ y, parseRouteToken x = .ok y := by
  intro x hx
  obtain ⟨s, rfl, hs⟩ := strPred_ok hx
  exact ⟨s, parseRouteToken_of_match hs⟩

/-- A clean well-formed URL string passes the full `search_url`
pipeline. -/
theorem exUrl : ∀ x,
    strPred (fun s => isWellFormedHttpUrl s && !lowerContainsBanned s) x = true →
    ∃ y, parseSearchUrl x = .ok y := by
  intro x hx
  obtain ⟨s, rfl, hs⟩ := strPred_ok hx
  rw [Bool.and_eq_true] at hs
  exact ⟨s, parseSearchUrl_of_valid hs.1 (by simpa using hs.2)⟩

/-- A 3-sentence string passes the top-level notes pipeline. -/
theorem exNotes : ∀ x,
    strPred (fun s => decide (3 ≤ (sentencesOf s).length)) x = true →
    ∃ y, parseNotesField x = .ok y := by
  intro x hx
  obtain ⟨s, rfl, hs⟩ := strPred_ok hx
  refine ⟨s, ?_⟩
  unfold parseNotesField
  rw [asStr_str, bind_okl]
  exact notes_min_sentences_of_le (of_decide_eq_true hs)

/-- A valid array field parses elementwise. -/
theorem exArr {α : Type} {p : Json → Except String α} {q : Json → Bool}
    (hp : ∀ x, q x = true → ∃ y, p x = .ok y) :
    ∀ x, arrAll q x = true → ∃ ys, parseArrOf p x = .ok ys := by
  intro x hx
  obtain ⟨a, rfl, ha⟩ := arrAll_ok hx
  obtain ⟨ys, hys⟩ := parseListWith_of_all hp ha
  rw [parseArrOf_arr]
  exact ⟨ys, hys⟩

/-- Completeness of `DoseRanges.parse`. -/
theorem DoseRanges_parse_complete {j : Json} (h : ValidDoseRanges j = true) :
    ∃ r, DoseRanges.parse j = .ok r := by
  cases j
  case obj o =>
    simp only [ValidDoseRanges, Bool.and_eq_true] at h
    obtain ⟨⟨⟨⟨⟨hk, h1⟩, h2⟩, h3⟩, h4⟩, h5⟩ := h
    obtain ⟨t, ht⟩ := fieldC exStr h1
    obtain ⟨l, hl⟩ := fieldC exStr h2
    obtain ⟨c, hc⟩ := fieldC exStr h3
    obtain ⟨s, hs⟩ := fieldC exStr h4
    obtain ⟨hv, hhv⟩ := fieldC exStr h5
    refine ⟨⟨t, l, c, s, hv⟩, ?_⟩
    unfold DoseRanges.parse
    rw [asObj_obj, bind_okl, requireClosed_of_all (keysAllDeclared_ok hk), bind_okl,
        ht, bind_okl, hl, bind_okl, hc, bind_okl, hs, bind_okl, hhv, bind_okl]
    rfl
  all_goals exact Bool.noConfusion h

/-- Completeness of `DurationRange.parse`. -/
theorem DurationRange_parse_complete {j : Json} (h : ValidDurationRange j = true) :
    ∃ r, DurationRange.parse j = .ok r := by
  cases j
  case obj o =>
    simp only [ValidDurationRange, Bool.and_eq_true] at h
    obtain ⟨⟨⟨⟨hk, h1⟩, h2⟩, h3⟩, h4⟩ := h
    obtain ⟨mn, hmn⟩ := fieldC exNum h1
    obtain ⟨mx, hmx⟩ := fieldC exNum h2
    obtain ⟨iso, hiso⟩ := fieldC (exArr exIso) h3
    obtain ⟨note, hnote⟩ := fieldC exStr h4
    refine ⟨⟨mn, mx, iso, note⟩, ?_⟩
    unfold DurationRange.parse
    rw [asObj_obj, bind_okl, requireClosed_of_all (keysAllDeclared_ok hk), bind_okl,
        hmn, bind_okl, hmx, bind_okl, hiso, bind_okl, hnote, bind_okl]
    rfl
  all_goals exact Bool.noConfusion h

/-- Completeness of `DurationPhase.parse`. -/
theorem DurationPhase_parse_complete {j : Json} (h : ValidDurationPhase j = true) :
    ∃ r, DurationPhase.parse j = .ok r := by
  cases j
  case obj o =>
    simp only [ValidDurationPhase, Bool.and_eq_true] at h
    obtain ⟨⟨⟨⟨hk, h1⟩, h2⟩, h3⟩, h4⟩ := h
    obtain ⟨st, hst⟩ := fieldC exNum h1
    obtain ⟨en, hen⟩ := fieldC exNum h2
    obtain ⟨isoS, hisoS⟩ := fieldC (exArr exIso) h3
    obtain ⟨isoE, hisoE⟩ := fieldC (exArr exIso) h4
    refine ⟨⟨st, en, isoS, isoE⟩, ?_⟩
    unfold DurationPhase.parse
    rw [asObj_obj, bind_okl, requireClosed_of_all (keysAllDeclared_ok hk), bind_okl,
        hst, bind_okl, hen, bind_okl, hisoS, bind_okl, hisoE, bind_okl]
    rfl
  all_goals exact Bool.noConfusion h

/-- Completeness of `DurationSummary.parse`. -/
theorem DurationSummary_parse_complete {j : Json} (h : ValidDurationSummary j = true) :
    ∃ r, DurationSummary.parse j = .ok r := by
  cases j
  case obj o =>
    simp only [ValidDurationSummary, Bool.and_eq_true] at h
    obtain ⟨⟨⟨⟨⟨hk, h1⟩, h2⟩, h3⟩, h4⟩, h5⟩ := h
    obtain ⟨t, ht⟩ := fieldC exStr h1
    obtain ⟨ons, hons⟩ := fieldC exStr h2
    obtain ⟨p, hp⟩ := fieldC exStr h3
    obtain ⟨off, hoff⟩ := fieldC exStr h4
    obtain ⟨a, ha⟩ := fieldC exStr h5
    refine ⟨⟨t, ons, p, off, a⟩, ?_⟩
    unfold DurationSummary.parse
    rw [asObj_obj, bind_okl, requireClosed_of_all (keysAllDeclared_ok hk), bind_okl,
        ht, bind_okl, hons, bind_okl, hp, bind_okl, hoff, bind_okl, ha, bind_okl]
    rfl
  all_goals exact Bool.noConfusion h

/-- Completeness of `Interactions.parse`. -/
theorem Interactions_parse_complete {j : Json} (h : ValidInteractions j = true) :
    ∃ r, Interactions.parse j = .ok r := by
  cases j
  case obj o =>
    simp only [ValidInteractions, Bool.and_eq_true] at h
    obtain ⟨⟨⟨hk, h1⟩, h2⟩, h3⟩ := h
    obtain ⟨d, hd⟩ := fieldC (exArr exStr) h1
    obtain ⟨u, hu⟩ := fieldC (exArr exStr) h2
    obtain ⟨c, hc⟩ := fieldC (exArr exStr) h3
    refine ⟨⟨d, u, c⟩, ?_⟩
    unfold Interactions.parse
    rw [asObj_obj, bind_okl, requireClosed_of_all (keysAllDeclared_ok hk), bind_okl,
        hd, bind_okl, hu, bind_okl, hc, bind_okl]
    rfl
  all_goals exact Bool.noConfusion h

/-- Completeness of `Citation.parse`. -/
theorem Citation_parse_complete {j : Json} (h : ValidCitation j = true) :
    ∃ r, Citation.parse j = .ok r := by
  cases j
  case obj o =>
    simp only [ValidCitation, Bool.and_eq_true] at h
    obtain ⟨⟨hk, h1⟩, h2⟩ := h
    obtain ⟨n, hn⟩ := fieldC exStr h1
    obtain ⟨ref, href⟩ := fieldC exStr h2
    refine ⟨⟨n, ref⟩, ?_⟩
    unfold Citation.parse
    rw [asObj_obj, bind_okl, requireClosed_of_all (keysAllDeclared_ok hk), bind_okl,
        hn, bind_okl, href, bind_okl]
    rfl
  all_goals exact Bool.noConfusion h

/-- Completeness of `ToleranceModel.parse`. -/
theorem ToleranceModel_parse_complete {j : Json} (h : ValidToleranceModel j = true) :
    ∃ r, ToleranceModel.parse j = .ok r := by
  cases j
  case obj o =>
    simp only [ValidToleranceModel, Bool.and_eq_true] at h
    obtain ⟨⟨⟨⟨hk, h1⟩, h2⟩, h3⟩, h4⟩ := h
    obtain ⟨t, ht⟩ := fieldC exEnum h1
    obtain ⟨br, hbr⟩ := fieldC exNonneg h2
    obtain ⟨dr, hdr⟩ := fieldC exNonneg h3
    obtain ⟨hl, hhl⟩ := fieldC exNonneg h4
    refine ⟨⟨t, br, dr, hl⟩, ?_⟩
    unfold ToleranceModel.parse
    rw [asObj_obj, bind_okl, requireClosed_of_all (keysAllDeclared_ok hk), bind_okl,
        ht, bind_okl, hbr, bind_okl, hdr, bind_okl, hhl, bind_okl]
    rfl
  all_goals exact Bool.noConfusion h

/-- Completeness of `ToleranceTimelinePoint.parse`. -/
theorem ToleranceTimelinePoint_parse_complete {j : Json}
    (h : ValidToleranceTimelinePoint j = true) :
    ∃ r, ToleranceTimelinePoint.parse j = .ok r := by
  cases j
  case obj o =>
    simp only [ValidToleranceTimelinePoint, Bool.and_eq_true] at h
    obtain ⟨⟨⟨hk, h1⟩, h2⟩, h3⟩ := h
    obtain ⟨hh, hhh⟩ := fieldC exNonneg h1
    obtain ⟨tp, htp⟩ := fieldC exPerc h2
    obtain ⟨c, hc⟩ := fieldC exPerc h3
    refine ⟨⟨hh, tp, c⟩, ?_⟩
    unfold ToleranceTimelinePoint.parse
    rw [asObj_obj, bind_okl, requireClosed_of_all (keysAllDeclared_ok hk), bind_okl,
        hhh, bind_okl, htp, bind_okl, hc, bind_okl]
    rfl
  all_goals exact Bool.noConfusion h

/-- Completeness of `ToleranceBaselinePoint.parse`: any number is
accepted for `hours`. -/
theorem ToleranceBaselinePoint_parse_complete {j : Json}
    (h : ValidToleranceBaselinePoint j = true) :
    ∃ r, ToleranceBaselinePoint.parse j = .ok r := by
  cases j
  case obj o =>
    simp only [ValidToleranceBaselinePoint, Bool.and_eq_true] at h
    obtain ⟨⟨hk, h1⟩, h2⟩ := h
    obtain ⟨hh, hhh⟩ := fieldC exNum h1
    obtain ⟨c, hc⟩ := fieldC exPerc h2
    refine ⟨⟨hh, c⟩, ?_⟩
    unfold ToleranceBaselinePoint.parse
    rw [asObj_obj, bind_okl, requireClosed_of_all (keysAllDeclared_ok hk), bind_okl,
        hhh, bind_okl, hc, bind_okl]
    rfl
  all_goals exact Bool.noConfusion h

/-- Completeness of `CrossToleranceEntry.parse`. -/
theorem CrossToleranceEntry_parse_complete {j : Json}
    (h : ValidCrossToleranceEntry j = true) :
    ∃ r, CrossToleranceEntry.parse j = .ok r := by
  cases j
  case obj o =>
    simp only [ValidCrossToleranceEntry, Bool.and_eq_true] at h
    obtain ⟨⟨⟨hk, h1⟩, h2⟩, h3⟩ := h
    obtain ⟨s, hs⟩ := fieldC exStr h1
    obtain ⟨ra, hra⟩ := fieldC exRatio h2
    obtain ⟨c, hc⟩ := fieldC exPerc h3
    refine ⟨⟨s, ra, c⟩, ?_⟩
    unfold CrossToleranceEntry.parse
    rw [asObj_obj, bind_okl, requireClosed_of_all (keysAllDeclared_ok hk), bind_okl,
        hs, bind_okl, hra, bind_okl, hc, bind_okl]
    rfl
  all_goals exact Bool.noConfusion h

/-- Completeness of `RouteOfAdministration.parse`. -/
theorem RouteOfAdministration_parse_complete {j : Json}
    (h : ValidRouteOfAdministration j = true) :
    ∃ r, RouteOfAdministration.parse j = .ok r := by
  cases j
  case obj o =>
    simp only [ValidRouteOfAdministration, Bool.and_eq_true] at h
    obtain ⟨⟨⟨⟨hk, h1⟩, h2⟩, h3⟩, h4⟩ := h
    obtain ⟨route, hroute⟩ := fieldC exRoute h1
    obtain ⟨units, hunits⟩ := fieldC exStr h2
    obtain ⟨notes, hnotes⟩ := fieldC exStr h3
    obtain ⟨dr, hdr⟩ := fieldC (fun x hx => DoseRanges_parse_complete hx) h4
    refine ⟨⟨route, units, notes, dr⟩, ?_⟩
    unfold RouteOfAdministration.parse
    rw [asObj_obj, bind_okl, requireClosed_of_all (keysAllDeclared_ok hk), bind_okl,
        hroute, bind_okl, hunits, bind_okl, hnotes, bind_okl, hdr, bind_okl]
    rfl
  all_goals exact Bool.noConfusion h

/-- Completeness of `Dosages.parse`. -/
theorem Dosages_parse_complete {j : Json} (h : ValidDosages j = true) :
    ∃ r, Dosages.parse j = .ok r := by
  cases j
  case obj o =>
    simp only [ValidDosages, Bool.and_eq_true] at h
    obtain ⟨hk, h1⟩ := h
    obtain ⟨routes, hroutes⟩ :=
      fieldC (exArr (fun x hx => RouteOfAdministration_parse_complete hx)) h1
    refine ⟨⟨routes⟩, ?_⟩
    unfold Dosages.parse
    rw [asObj_obj, bind_okl, requireClosed_of_all (keysAllDeclared_ok hk), bind_okl,
        hroutes, bind_okl]
    rfl
  all_goals exact Bool.noConfusion h

/-- Completeness of `DurationCurveData.parse`. -/
theorem DurationCurveData_parse_complete {j : Json}
    (h : ValidDurationCurveData j = true) :
    ∃ r, DurationCurveData.parse j = .ok r := by
  cases j
  case obj o =>
    simp only [ValidDurationCurveData, Bool.and_eq_true] at h
    obtain ⟨⟨⟨⟨⟨⟨⟨hk, h1⟩, h2⟩, h3⟩, h4⟩, h5⟩, h6⟩, h7⟩ := h
    obtain ⟨ref, href⟩ := fieldC exStr h1
    obtain ⟨units, hunits⟩ := fieldC exEnum h2
    obtain ⟨total, htotal⟩ := fieldC (fun x hx => DurationRange_parse_complete hx) h3
    obtain ⟨ons, hons⟩ := fieldC (fun x hx => DurationPhase_parse_complete hx) h4
    obtain ⟨peak, hpeak⟩ := fieldC (fun x hx => DurationPhase_parse_complete hx) h5
    obtain ⟨off, hoff⟩ := fieldC (fun x hx => DurationPhase_parse_complete hx) h6
    obtain ⟨after, hafter⟩ := fieldC (fun x hx => DurationPhase_parse_complete hx) h7
    refine ⟨⟨ref, units, total, ons, peak, off, after⟩, ?_⟩
    unfold DurationCurveData.parse
    rw [asObj_obj, bind_okl, requireClosed_of_all (keysAllDeclared_ok hk), bind_okl,
        href, bind_okl, hunits, bind_okl, htotal, bind_okl, hons, bind_okl,
        hpeak, bind_okl, hoff, bind_okl, hafter, bind_okl]
    rfl
  all_goals exact Bool.noConfusion h

/-- Completeness of `DurationCurveEntry.parse`. -/
theorem DurationCurveEntry_parse_complete {j : Json}
    (h : ValidDurationCurveEntry j = true) :
    ∃ r, DurationCurveEntry.parse j = .ok r := by
  cases j
  case obj o =>
    simp only [ValidDurationCurveEntry, Bool.and_eq_true] at h
    obtain ⟨⟨hk, h1⟩, h2⟩ := h
    obtain ⟨m, hm⟩ := fieldC exStr h1
    obtain ⟨dc, hdc⟩ := fieldC (fun x hx => DurationCurveData_parse_complete hx) h2
    refine ⟨⟨m, dc⟩, ?_⟩
    unfold DurationCurveEntry.parse
    rw [asObj_obj, bind_okl, requireClosed_of_all (keysAllDeclared_ok hk), bind_okl,
        hm, bind_okl, hdc, bind_okl]
    rfl
  all_goals exact Bool.noConfusion h

/-- Completeness of `ToleranceBaselines.parse`. -/
theorem ToleranceBaselines_parse_complete {j : Json}
    (h : ValidToleranceBaselines j = true) :
    ∃ r, ToleranceBaselines.parse j = .ok r := by
  cases j
  case obj o =>
    simp only [ValidToleranceBaselines, Bool.and_eq_true] at h
    obtain ⟨⟨⟨hk, h1⟩, h2⟩, h3⟩ := h
    obtain ⟨f, hf⟩ := fieldC (fun x hx => ToleranceBaselinePoint_parse_complete hx) h1
    obtain ⟨ha, hha⟩ := fieldC (fun x hx => ToleranceBaselinePoint_parse_complete hx) h2
    obtain ⟨b, hb⟩ := fieldC (fun x hx => ToleranceBaselinePoint_parse_complete hx) h3
    refine ⟨⟨f, ha, b⟩, ?_⟩
    unfold ToleranceBaselines.parse
    rw [asObj_obj, bind_okl, requireClosed_of_all (keysAllDeclared_ok hk), bind_okl,
        hf, bind_okl, hha, bind_okl, hb, bind_okl]
    rfl
  all_goals exact Bool.noConfusion h

/-- Completeness of `ToleranceData.parse`. -/
theorem ToleranceData_parse_complete {j : Json} (h : ValidToleranceData j = true) :
    ∃ r, ToleranceData.parse j = .ok r := by
  cases j
  case obj o =>
    simp only [ValidToleranceData, Bool.and_eq_true] at h
    obtain ⟨⟨⟨⟨⟨⟨hk, h1⟩, h2⟩, h3⟩, h4⟩, h5⟩, h6⟩ := h
    obtain ⟨m, hm⟩ := fieldC (fun x hx => ToleranceModel_parse_complete hx) h1
    obtain ⟨tl, htl⟩ :=
      fieldC (exArr (fun x hx => ToleranceTimelinePoint_parse_complete hx)) h2
    obtain ⟨b, hb⟩ := fieldC (fun x hx => ToleranceBaselines_parse_complete hx) h3
    obtain ⟨ct, hct⟩ :=
      fieldC (exArr (fun x hx => CrossToleranceEntry_parse_complete hx)) h4
    obtain ⟨n, hn⟩ := fieldC exStr h5
    obtain ⟨dq, hdq⟩ := fieldC exEnum h6
    refine ⟨⟨m, tl, b, ct, n, dq⟩, ?_⟩
    unfold ToleranceData.parse
    rw [asObj_obj, bind_okl, requireClosed_of_all (keysAllDeclared_ok hk), bind_okl,
        hm, bind_okl, htl, bind_okl, hb, bind_okl, hct, bind_okl, hn, bind_okl,
        hdq, bind_okl]
    rfl
  all_goals exact Bool.noConfusion h

/-- Completeness of `DrugInfo.parse`: every spec-valid candidate
mapping constructs successfully. -/
theorem DrugInfo_parse_complete {j : Json} (h : ValidDrugInfo j = true) :
    ∃ r, DrugInfo.parse j = .ok r := by
  cases j
  case obj o =>
    simp only [ValidDrugInfo, Bool.and_eq_true] at h
    obtain ⟨⟨⟨⟨⟨⟨⟨⟨⟨⟨⟨⟨⟨⟨⟨hk, h1⟩, h2⟩, h3⟩, h4⟩, h5⟩, h6⟩, h7⟩, h8⟩, h9⟩,
      h10⟩, h11⟩, h12⟩, h13⟩, h14⟩, h15⟩ := h
    obtain ⟨dn, hdn⟩ := fieldC exStr h1
    obtain ⟨su, hsu⟩ := fieldC exUrl h2
    obtain ⟨cc, hcc⟩ := fieldC exStr h3
    obtain ⟨pc, hpc⟩ := fieldC exStr h4
    obtain ⟨ds, hds⟩ := fieldC (fun x hx => Dosages_parse_complete hx) h5
    obtain ⟨du, hdu⟩ := fieldC (fun x hx => DurationSummary_parse_complete hx) h6
    obtain ⟨dcs, hdcs⟩ :=
      fieldC (exArr (fun x hx => DurationCurveEntry_parse_complete hx)) h7
    obtain ⟨ap, hap⟩ := fieldC exStr h8
    obtain ⟨it, hit⟩ := fieldC (fun x hx => Interactions_parse_complete hx) h9
    obtain ⟨n, hn⟩ := fieldC exNotes h10
    obtain ⟨se, hse⟩ := fieldC (exArr exStr) h11
    obtain ⟨tol, htol⟩ := fieldC (fun x hx => ToleranceData_parse_complete hx) h12
    obtain ⟨hl, hhl⟩ := fieldC exStr h13
    obtain ⟨cit, hcit⟩ := fieldC (exArr (fun x hx => Citation_parse_complete hx)) h14
    obtain ⟨cat, hcat⟩ := fieldC (exArr exEnum) h15
    refine ⟨⟨dn, su, cc, pc, ds, du, dcs, ap, it, n, se, tol, hl, cit, cat⟩, ?_⟩
    unfold DrugInfo.parse
    rw [asObj_obj, bind_okl, requireClosed_of_all (keysAllDeclared_ok hk), bind_okl,
        hdn, bind_okl, hsu, bind_okl, hcc, bind_okl, hpc, bind_okl, hds, bind_okl,
        hdu, bind_okl, hdcs, bind_okl, hap, bind_okl, hit, bind_okl, hn, bind_okl,
        hse, bind_okl, htol, bind_okl, hhl, bind_okl, hcit, bind_okl, hcat, bind_okl]
    rfl
  all_goals exact Bool.noConfusion h

/-! ## Evaluation of construction on the parametrized sample -/

/-- Record value produced by a successful construction of `mkInput`. -/
def mkRecord (su n rn tn : String) : DrugInfo :=
  ⟨"Example", su, "phenethylamine", "stimulant",
   ⟨[⟨"oral", "mg", rn, ⟨"5 mg", "10 mg", "20 mg", "40 mg", "80 mg"⟩⟩]⟩,
   ⟨"4-8 h", "30 min", "2 h", "2 h", "4 h"⟩,
   [⟨"oral", ⟨"ref", "hours", ⟨4, 8, ["PT4H", "PT8H"], "typical"⟩,
     ⟨0, 2, ["PT0S"], ["PT2H"]⟩, ⟨0, 2, ["PT0S"], ["PT2H"]⟩,
     ⟨0, 2, ["PT0S"], ["PT2H"]⟩, ⟨0, 2, ["PT0S"], ["PT2H"]⟩⟩⟩],
   "moderate",
   ⟨["MAOIs"], ["tramadol"], ["alcohol"]⟩,
   n,
   ["euphoria"],
   ⟨⟨"exponential", 5, 2, 24⟩, [⟨24, 50, 80⟩],
    ⟨⟨12, 90⟩, ⟨12, 90⟩, ⟨12, 90⟩⟩, [⟨"LSD", 1, 70⟩], tn, "medium"⟩,
   "10 hours",
   [⟨"src", "https://example.org/ref"⟩],
   ["stimulant"]⟩

/-- Construction on the parametrized sample reduces to the two
blocking validations: the `search_url` pipeline and the top-level
notes rule.  All other fields of `mkInput` are constants that validate
by computation. -/
theorem parse_mkInput_unfold (u n rn tn : String) :
    DrugInfo.parse (mkInput u n rn tn) =
      (parseSearchUrl (.str u) >>= fun su =>
        notes_min_sentences n >>= fun nn => .ok (mkRecord su nn rn tn)) := rfl

/-- Success of construction on the parametrized sample is exactly
success of the two custom validations. -/
theorem parse_mkInput_isOk (u n rn tn : String) :
    isOkE (DrugInfo.parse (mkInput u n rn tn)) =
      (isOkE (parseSearchUrl (.str u)) && isOkE (notes_min_sentences n)) := by
  rw [parse_mkInput_unfold]
  cases hsu : parseSearchUrl (.str u) with
  | error e => rw [bind_errl]; rfl
  | ok su =>
    rw [bind_okl]
    cases hn : notes_min_sentences n with
    | error e => rw [bind_errl]; rfl
    | ok nn => rw [bind_okl]; rfl

/-! ## Exact key sets: a successful construction pins the declared keys -/

/-- A successful `DurationRange` construction used exactly the declared keys. -/
theorem DurationRange_parse_keys {o : List (String × Json)} {r : DurationRange}
    (h : DurationRange.parse (.obj o) = .ok r) :
    (∀ kv ∈ o, DurationRange.declared.contains kv.1 = true) ∧
    (∀ k ∈ DurationRange.declared, (lookupJ o k).isSome = true) := by
  obtain ⟨o2, hobj, hcl, h1, h2, ⟨a1, h3, x1⟩, h4⟩ := DurationRange_parse_sound h
  injection hobj with hobj
  subst hobj
  refine ⟨hcl, ?_⟩
  intro k hk
  simp only [DurationRange.declared, List.mem_cons, List.not_mem_nil, or_false] at hk
  rcases hk with rfl | rfl | rfl | rfl <;>
    first
      | (rw [h1]; rfl)
      | (rw [h2]; rfl)
      | (rw [h3]; rfl)
      | (rw [h4]; rfl)

/-- A successful `DurationPhase` construction used exactly the declared keys. -/
theorem DurationPhase_parse_keys {o : List (String × Json)} {r : DurationPhase}
    (h : DurationPhase.parse (.obj o) = .ok r) :
    (∀ kv ∈ o, DurationPhase.declared.contains kv.1 = true) ∧
    (∀ k ∈ DurationPhase.declared, (lookupJ o k).isSome = true) := by
  obtain ⟨o2, hobj, hcl, h1, h2, ⟨a1, h3, x1⟩, ⟨a2, h4, x2⟩⟩ := DurationPhase_parse_sound h
  injection hobj with hobj
  subst hobj
  refine ⟨hcl, ?_⟩
  intro k hk
  simp only [DurationPhase.declared, List.mem_cons, List.not_mem_nil, or_false] at hk
  rcases hk with rfl | rfl | rfl | rfl <;>
    first
      | (rw [h1]; rfl)
      | (rw [h2]; rfl)
      | (rw [h3]; rfl)
      | (rw [h4]; rfl)

/-- A successful `DurationCurveData` construction used exactly the declared keys. -/
theorem DurationCurveData_parse_keys {o : List (String × Json)} {r : DurationCurveData}
    (h : DurationCurveData.parse (.obj o) = .ok r) :
    (∀ kv ∈ o, DurationCurveData.declared.contains kv.1 = true) ∧
    (∀ k ∈ DurationCurveData.declared, (lookupJ o k).isSome = true) := by
  obtain ⟨o2, hobj, hcl, h1, ⟨h2, x1⟩, ⟨v1, h3, x2⟩, ⟨v2, h4, x3⟩, ⟨v3, h5, x4⟩, ⟨v4, h6, x5⟩, ⟨v5, h7, x6⟩⟩ := DurationCurveData_parse_sound h
  injection hobj with hobj
  subst hobj
  refine ⟨hcl, ?_⟩
  intro k hk
  simp only [DurationCurveData.declared, List.mem_cons, List.not_mem_nil, or_false] at hk
  rcases hk with rfl | rfl | rfl | rfl | rfl | rfl | rfl <;>
    first
      | (rw [h1]; rfl)
      | (rw [h2]; rfl)
      | (rw [h3]; rfl)
      | (rw [h4]; rfl)
      | (rw [h5]; rfl)
      | (rw [h6]; rfl)
      | (rw [h7]; rfl)

/-- A successful `DurationCurveEntry` construction used exactly the declared keys. -/
theorem DurationCurveEntry_parse_keys {o : List (String × Json)} {r : DurationCurveEntry}
    (h : DurationCurveEntry.parse (.obj o) = .ok r) :
    (∀ kv ∈ o, DurationCurveEntry.declared.contains kv.1 = true) ∧
    (∀ k ∈ DurationCurveEntry.declared, (lookupJ o k).isSome = true) := by
  obtain ⟨o2, hobj, hcl, h1, ⟨v1, h2, x1⟩⟩ := DurationCurveEntry_parse_sound h
  injection hobj with hobj
  subst hobj
  refine ⟨hcl, ?_⟩
  intro k hk
  simp only [DurationCurveEntry.declared, List.mem_cons, List.not_mem_nil, or_false] at hk
  rcases hk with rfl | rfl <;>
    first
      | (rw [h1]; rfl)
      | (rw [h2]; rfl)

/-- A successful `DoseRanges` construction used exactly the declared keys. -/
theorem DoseRanges_parse_keys {o : List (String × Json)} {r : DoseRanges}
    (h : DoseRanges.parse (.obj o) = .ok r) :
    (∀ kv ∈ o, DoseRanges.declared.contains kv.1 = true) ∧
    (∀ k ∈ DoseRanges.declared, (lookupJ o k).isSome = true) := by
  obtain ⟨o2, hobj, hcl, h1, h2, h3, h4, h5⟩ := DoseRanges_parse_sound h
  injection hobj with hobj
  subst hobj
  refine ⟨hcl, ?_⟩
  intro k hk
  simp only [DoseRanges.declared, List.mem_cons, List.not_mem_nil, or_false] at hk
  rcases hk with rfl | rfl | rfl | rfl | rfl <;>
    first
      | (rw [h1]; rfl)
      | (rw [h2]; rfl)
      | (rw [h3]; rfl)
      | (rw [h4]; rfl)
      | (rw [h5]; rfl)

/-- A successful `RouteOfAdministration` construction used exactly the declared keys. -/
theorem RouteOfAdministration_parse_keys {o : List (String × Json)} {r : RouteOfAdministration}
    (h : RouteOfAdministration.parse (.obj o) = .ok r) :
    (∀ kv ∈ o, RouteOfAdministration.declared.contains kv.1 = true) ∧
    (∀ k ∈ RouteOfAdministration.declared, (lookupJ o k).isSome = true) := by
  obtain ⟨o2, hobj, hcl, ⟨h1, x1⟩, h2, h3, ⟨v1, h4, x2⟩⟩ := RouteOfAdministration_parse_sound h
  injection hobj with hobj
  subst hobj
  refine ⟨hcl, ?_⟩
  intro k hk
  simp only [RouteOfAdministration.declared, List.mem_cons, List.not_mem_nil, or_false] at hk
  rcases hk with rfl | rfl | rfl | rfl <;>
    first
      | (rw [h1]; rfl)
      | (rw [h2]; rfl)
      | (rw [h3]; rfl)
      | (rw [h4]; rfl)

/-- A successful `Dosages` construction used exactly the declared keys. -/
theorem Dosages_parse_keys {o : List (String × Json)} {r : Dosages}
    (h : Dosages.parse (.obj o) = .ok r) :
    (∀ kv ∈ o, Dosages.declared.contains kv.1 = true) ∧
    (∀ k ∈ Dosages.declared, (lookupJ o k).isSome = true) := by
  obtain ⟨o2, hobj, hcl, ⟨a1, h1, x1⟩⟩ := Dosages_parse_sound h
  injection hobj with hobj
  subst hobj
  refine ⟨hcl, ?_⟩
  intro k hk
  simp only [Dosages.declared, List.mem_cons, List.not_mem_nil, or_false] at hk
  rcases hk with rfl
  rw [h1]
  rfl

/-- A successful `DurationSummary` construction used exactly the declared keys. -/
theorem DurationSummary_parse_keys {o : List (String × Json)} {r : DurationSummary}
    (h : DurationSummary.parse (.obj o) = .ok r) :
    (∀ kv ∈ o, DurationSummary.declared.contains kv.1 = true) ∧
    (∀ k ∈ DurationSummary.declared, (lookupJ o k).isSome = true) := by
  obtain ⟨o2, hobj, hcl, h1, h2, h3, h4, h5⟩ := DurationSummary_parse_sound h
  injection hobj with hobj
  subst hobj
  refine ⟨hcl, ?_⟩
  intro k hk
  simp only [DurationSummary.declared, List.mem_cons, List.not_mem_nil, or_false] at hk
  rcases hk with rfl | rfl | rfl | rfl | rfl <;>
    first
      | (rw [h1]; rfl)
      | (rw [h2]; rfl)
      | (rw [h3]; rfl)
      | (rw [h4]; rfl)
      | (rw [h5]; rfl)

/-- A successful `Interactions` construction used exactly the declared keys. -/
theorem Interactions_parse_keys {o : List (String × Json)} {r : Interactions}
    (h : Interactions.parse (.obj o) = .ok r) :
    (∀ kv ∈ o, Interactions.declared.contains kv.1 = true) ∧
    (∀ k ∈ Interactions.declared, (lookupJ o k).isSome = true) := by
  obtain ⟨o2, hobj, hcl, ⟨a1, h1, x1⟩, ⟨a2, h2, x2⟩, ⟨a3, h3, x3⟩⟩ := Interactions_parse_sound h
  injection hobj with hobj
  subst hobj
  refine ⟨hcl, ?_⟩
  intro k hk
  simp only [Interactions.declared, List.mem_cons, List.not_mem_nil, or_false] at hk
  rcases hk with rfl | rfl | rfl <;>
    first
      | (rw [h1]; rfl)
      | (rw [h2]; rfl)
      | (rw [h3]; rfl)

/-- A successful `ToleranceModel` construction used exactly the declared keys. -/
theorem ToleranceModel_parse_keys {o : List (String × Json)} {r : ToleranceModel}
    (h : ToleranceModel.parse (.obj o) = .ok r) :
    (∀ kv ∈ o, ToleranceModel.declared.contains kv.1 = true) ∧
    (∀ k ∈ ToleranceModel.declared, (lookupJ o k).isSome = true) := by
  obtain ⟨o2, hobj, hcl, ⟨h1, x1⟩, ⟨h2, x2⟩, ⟨h3, x3⟩, ⟨h4, x4⟩⟩ := ToleranceModel_parse_sound h
  injection hobj with hobj
  subst hobj
  refine ⟨hcl, ?_⟩
  intro k hk
  simp only [ToleranceModel.declared, List.mem_cons, List.not_mem_nil, or_false] at hk
  rcases hk with rfl | rfl | rfl | rfl <;>
    first
      | (rw [h1]; rfl)
      | (rw [h2]; rfl)
      | (rw [h3]; rfl)
      | (rw [h4]; rfl)

/-- A successful `ToleranceTimelinePoint` construction used exactly the declared keys. -/
theorem ToleranceTimelinePoint_parse_keys {o : List (String × Json)} {r : ToleranceTimelinePoint}
    (h : ToleranceTimelinePoint.parse (.obj o) = .ok r) :
    (∀ kv ∈ o, ToleranceTimelinePoint.declared.contains kv.1 = true) ∧
    (∀ k ∈ ToleranceTimelinePoint.declared, (lookupJ o k).isSome = true) := by
  obtain ⟨o2, hobj, hcl, ⟨h1, x1⟩, ⟨h2, x2⟩, ⟨h3, x3⟩⟩ := ToleranceTimelinePoint_parse_sound h
  injection hobj with hobj
  subst hobj
  refine ⟨hcl, ?_⟩
  intro k hk
  simp only [ToleranceTimelinePoint.declared, List.mem_cons, List.not_mem_nil, or_false] at hk
  rcases hk with rfl | rfl | rfl <;>
    first
      | (rw [h1]; rfl)
      | (rw [h2]; rfl)
      | (rw [h3]; rfl)

/-- A successful `ToleranceBaselinePoint` construction used exactly the declared keys. -/
theorem ToleranceBaselinePoint_parse_keys {o : List (String × Json)} {r : ToleranceBaselinePoint}
    (h : ToleranceBaselinePoint.parse (.obj o) = .ok r) :
    (∀ kv ∈ o, ToleranceBaselinePoint.declared.contains kv.1 = true) ∧
    (∀ k ∈ ToleranceBaselinePoint.declared, (lookupJ o k).isSome = true) := by
  obtain ⟨o2, hobj, hcl, h1, ⟨h2, x1⟩⟩ := ToleranceBaselinePoint_parse_sound h
  injection hobj with hobj
  subst hobj
  refine ⟨hcl, ?_⟩
  intro k hk
  simp only [ToleranceBaselinePoint.declared, List.mem_cons, List.not_mem_nil, or_false] at hk
  rcases hk with rfl | rfl <;>
    first
      | (rw [h1]; rfl)
      | (rw [h2]; rfl)

/-- A successful `ToleranceBaselines` construction used exactly the declared keys. -/
theorem ToleranceBaselines_parse_keys {o : List (String × Json)} {r : ToleranceBaselines}
    (h : ToleranceBaselines.parse (.obj o) = .ok r) :
    (∀ kv ∈ o, ToleranceBaselines.declared.contains kv.1 = true) ∧
    (∀ k ∈ ToleranceBaselines.declared, (lookupJ o k).isSome = true) := by
  obtain ⟨o2, hobj, hcl, ⟨v1, h1, x1⟩, ⟨v2, h2, x2⟩, ⟨v3, h3, x3⟩⟩ := ToleranceBaselines_parse_sound h
  injection hobj with hobj
  subst hobj
  refine ⟨hcl, ?_⟩
  intro k hk
  simp only [ToleranceBaselines.declared, List.mem_cons, List.not_mem_nil, or_false] at hk
  rcases hk with rfl | rfl | rfl <;>
    first
      | (rw [h1]; rfl)
      | (rw [h2]; rfl)
      | (rw [h3]; rfl)

/-- A successful `CrossToleranceEntry` construction used exactly the declared keys. -/
theorem CrossToleranceEntry_parse_keys {o : List (String × Json)} {r : CrossToleranceEntry}
    (h : CrossToleranceEntry.parse (.obj o) = .ok r) :
    (∀ kv ∈ o, CrossToleranceEntry.declared.contains kv.1 = true) ∧
    (∀ k ∈ CrossToleranceEntry.declared, (lookupJ o k).isSome = true) := by
  obtain ⟨o2, hobj, hcl, h1, ⟨h2, x1⟩, ⟨h3, x2⟩⟩ := CrossToleranceEntry_parse_sound h
  injection hobj with hobj
  subst hobj
  refine ⟨hcl, ?_⟩
  intro k hk
  simp only [CrossToleranceEntry.declared, List.mem_cons, List.not_mem_nil, or_false] at hk
  rcases hk with rfl | rfl | rfl <;>
    first
      | (rw [h1]; rfl)
      | (rw [h2]; rfl)
      | (rw [h3]; rfl)

/-- A successful `ToleranceData` construction used exactly the declared keys. -/
theorem ToleranceData_parse_keys {o : List (String × Json)} {r : ToleranceData}
    (h : ToleranceData.parse (.obj o) = .ok r) :
    (∀ kv ∈ o, ToleranceData.declared.contains kv.1 = true) ∧
    (∀ k ∈ ToleranceData.declared, (lookupJ o k).isSome = true) := by
  obtain ⟨o2, hobj, hcl, ⟨v1, h1, x1⟩, ⟨a1, h2, x2⟩, ⟨v2, h3, x3⟩, ⟨a2, h4, x4⟩, h5, ⟨h6, x5⟩⟩ := ToleranceData_parse_sound h
  injection hobj with hobj
  subst hobj
  refine ⟨hcl, ?_⟩
  intro k hk
  simp only [ToleranceData.declared, List.mem_cons, List.not_mem_nil, or_false] at hk
  rcases hk with rfl | rfl | rfl | rfl | rfl | rfl <;>
    first
      | (rw [h1]; rfl)
      | (rw [h2]; rfl)
      | (rw [h3]; rfl)
      | (rw [h4]; rfl)
      | (rw [h5]; rfl)
      | (rw [h6]; rfl)

/-- A successful `Citation` construction used exactly the declared keys. -/
theorem Citation_parse_keys {o : List (String × Json)} {r : Citation}
    (h : Citation.parse (.obj o) = .ok r) :
    (∀ kv ∈ o, Citation.declared.contains kv.1 = true) ∧
    (∀ k ∈ Citation.declared, (lookupJ o k).isSome = true) := by
  obtain ⟨o2, hobj, hcl, h1, h2⟩ := Citation_parse_sound h
  injection hobj with hobj
  subst hobj
  refine ⟨hcl, ?_⟩
  intro k hk
  simp only [Citation.declared, List.mem_cons, List.not_mem_nil, or_false] at hk
  rcases hk with rfl | rfl <;>
    first
      | (rw [h1]; rfl)
      | (rw [h2]; rfl)

/-- A successful `DrugInfo` construction used exactly the declared keys. -/
theorem DrugInfo_parse_keys {o : List (String × Json)} {r : DrugInfo}
    (h : DrugInfo.parse (.obj o) = .ok r) :
    (∀ kv ∈ o, DrugInfo.declared.contains kv.1 = true) ∧
    (∀ k ∈ DrugInfo.declared, (lookupJ o k).isSome = true) := by
  obtain ⟨o2, hobj, hcl, h1, ⟨h2, x1⟩, h3, h4, ⟨v1, h5, x2⟩, ⟨v2, h6, x3⟩, ⟨a1, h7, x4⟩, h8, ⟨v3, h9, x5⟩, ⟨h10, x6⟩, ⟨a2, h11, x7⟩, ⟨v4, h12, x8⟩, h13, ⟨a3, h14, x9⟩, ⟨a4, h15, x10⟩⟩ := DrugInfo_parse_sound h
  injection hobj with hobj
  subst hobj
  refine ⟨hcl, ?_⟩
  intro k hk
  simp only [DrugInfo.declared, List.mem_cons, List.not_mem_nil, or_false] at hk
  rcases hk with rfl | rfl | rfl | rfl | rfl | rfl | rfl | rfl | rfl | rfl | rfl | rfl | rfl | rfl | rfl <;>
    first
      | (rw [h1]; rfl)
      | (rw [h2]; rfl)
      | (rw [h3]; rfl)
      | (rw [h4]; rfl)
      | (rw [h5]; rfl)
      | (rw [h6]; rfl)
      | (rw [h7]; rfl)
      | (rw [h8]; rfl)
      | (rw [h9]; rfl)
      | (rw [h10]; rfl)
      | (rw [h11]; rfl)
      | (rw [h12]; rfl)
      | (rw [h13]; rfl)
      | (rw [h14]; rfl)
      | (rw [h15]; rfl)

/-- A construction fails on any object missing a declared key or
holding an undeclared key. -/
theorem structuralFail {α : Type} {declared : List String}
    {parse : Json → Except String α}
    (hkeys : ∀ {o : List (String × Json)} {r : α}, parse (.obj o) = .ok r →
      (∀ kv ∈ o, declared.contains kv.1 = true) ∧
      (∀ k ∈ declared, (lookupJ o k).isSome = true))
    {o : List (String × Json)}
    (hbad : (∃ k ∈ declared, lookupJ o k = none) ∨
            (∃ kv ∈ o, ¬ declared.contains kv.1 = true)) :
    isOkE (parse (.obj o)) = false := by
  cases hok : isOkE (parse (.obj o)) with
  | false => rfl
  | true =>
    exfalso
    obtain ⟨r, hr⟩ := isOkE_true_iff.mp hok
    obtain ⟨hcl, hpres⟩ := hkeys hr
    rcases hbad with ⟨k, hk, hnone⟩ | ⟨kv, hkv, hnd⟩
    · have := hpres k hk
      rw [hnone] at this
      exact Bool.noConfusion this
    · exact hnd (hcl kv hkv)

/-! ## Assignment model (`validate_assignment=True` on the root) -/

/-- The fifteen assignable fields of the root record; assignment to
any other attribute is rejected by the closed shape. -/
inductive DrugInfoField where
  | drug_name | search_url | chemical_class | psychoactive_class
  | dosages | duration | duration_curves | addiction_potential
  | interactions | notes | subjective_effects | tolerance
  | half_life | citations | categories

/-- Assignment to a field of an already-constructed record: the new
candidate value runs through the same per-field validation pipeline
used at construction (`validate_assignment=True`); on failure the
assignment raises and no updated record exists, so the caller's record
keeps its prior value. -/
def DrugInfo.setField (r : DrugInfo) (f : DrugInfoField) (v : Json) :
    Except String DrugInfo :=
  match f with
  | .drug_name => do
    let s ← asStr v
    pure { r with drug_name := s }
  | .search_url => do
    let s ← parseSearchUrl v
    pure { r with search_url := s }
  | .chemical_class => do
    let s ← asStr v
    pure { r with chemical_class := s }
  | .psychoactive_class => do
    let s ← asStr v
    pure { r with psychoactive_class := s }
  | .dosages => do
    let s ← Dosages.parse v
    pure { r with dosages := s }
  | .duration => do
    let s ← DurationSummary.parse v
    pure { r with duration := s }
  | .duration_curves => do
    let s ← parseArrOf DurationCurveEntry.parse v
    pure { r with duration_curves := s }
  | .addiction_potential => do
    let s ← asStr v
    pure { r with addiction_potential := s }
  | .interactions => do
    let s ← Interactions.parse v
    pure { r with interactions := s }
  | .notes => do
    let s ← parseNotesField v
    pure { r with notes := s }
  | .subjective_effects => do
    let s ← parseArrOf asStr v
    pure { r with subjective_effects := s }
  | .tolerance => do
    let s ← ToleranceData.parse v
    pure { r with tolerance := s }
  | .half_life => do
    let s ← asStr v
    pure { r with half_life := s }
  | .citations => do
    let s ← parseArrOf Citation.parse v
    pure { r with citations := s }
  | .categories => do
    let s ← parseArrOf (parseEnum categoryEnumTokens) v
    pure { r with categories := s }

/-- The two custom invariants of a constructed record. -/
def CustomRulesHold (r : DrugInfo) : Prop :=
  3 ≤ (sentencesOf r.notes).length ∧ lowerContainsBanned r.search_url = false

/-! ## Key replacement (for the nested-notes claims) -/

/-- Replace the value stored under `k`, keeping the key set. -/
def replaceKey (o : List (String × Json)) (k : String) (v : Json) :
    List (String × Json) :=
  o.map (fun kv => if kv.1 = k then (kv.1, v) else kv)

/-- Replacement keeps every key. -/
theorem replaceKey_keys {d : List String} {o : List (String × Json)}
    {k : String} {v : Json} (h : ∀ kv ∈ o, d.contains kv.1 = true) :
    ∀ kv ∈ replaceKey o k v, d.contains kv.1 = true := by
  intro kv hkv
  unfold replaceKey at hkv
  obtain ⟨kv0, hkv0, heq⟩ := List.mem_map.mp hkv
  by_cases hk : kv0.1 = k
  · rw [if_pos hk] at heq
    rw [← heq]
    exact hk ▸ h kv0 hkv0
  · rw [if_neg hk] at heq
    rw [← heq]
    exact h kv0 hkv0

/-- Looking up the replaced key returns the new value when the key was
present. -/
theorem lookupJ_replaceKey_self {o : List (String × Json)} {k : String} {v : Json}
    (h : (lookupJ o k).isSome = true) :
    lookupJ (replaceKey o k v) k = some v := by
  induction o with
  | nil => exact Bool.noConfusion h
  | cons kv rest ih =>
    by_cases hk : kv.1 = k
    · simp only [replaceKey, List.map_cons, if_pos hk, lookupJ]
    · simp only [lookupJ, if_neg hk] at h
      simp only [replaceKey, List.map_cons, if_neg hk, lookupJ, if_neg hk]
      exact ih h

/-- Looking up any other key is unchanged by the replacement. -/
theorem lookupJ_replaceKey_ne {o : List (String × Json)} {k k2 : String} {v : Json}
    (h : k2 ≠ k) : lookupJ (replaceKey o k v) k2 = lookupJ o k2 := by
  induction o with
  | nil => rfl
  | cons kv rest ih =>
    by_cases hk : kv.1 = k
    · have hne : ¬ kv.1 = k2 := by rw [hk]; exact fun hh => h hh.symm
      simp only [replaceKey, List.map_cons, if_pos hk, lookupJ, if_neg hne]
      exact ih
    · simp only [replaceKey, List.map_cons, if_neg hk, lookupJ]
      by_cases h2 : kv.1 = k2
      · simp only [if_pos h2]
      · simp only [if_neg h2]
        exact ih

/-! ## Schema export -/

/-- Closed object schema with the given properties, all required. -/
def objSchema (props : List (String × Json)) : Json :=
  .obj [("type", .str "object"), ("properties", .obj props),
        ("required", .arr (props.map (fun kv => .str kv.1))),
        ("additionalProperties", .bool false)]

/-- Reference to a `$defs` entry. -/
def refSchema (name : String) : Json :=
  .obj [("$ref", .str ("#/$defs/" ++ name))]

/-- String field schema. -/
def strSchema : Json := .obj [("type", .str "string")]

/-- Number field schema. -/
def numSchema : Json := .obj [("type", .str "number")]

/-- Array field schema. -/
def arrSchema (item : Json) : Json :=
  .obj [("type", .str "array"), ("items", item)]

/-- Modelled from the spec: the JSON Schema document the validation
library derives from the `DrugInfo` type graph (spec section 6: nested
`$defs` entries for every entity, `additionalProperties: false` at
every object level, enum/bound/pattern constraints rendered inside the
field schemas).  The generator itself lives in the validation library
outside this repository, and no claim depends on the document's exact
contents — only on the fixed envelope around it — so the model records
the document at the level of its object skeleton. -/
def drugInfoJsonSchema : Json :=
  .obj [
    ("$defs", .obj [
      ("DurationRange", objSchema [("min", numSchema), ("max", numSchema),
        ("iso", arrSchema strSchema), ("note", strSchema)]),
      ("DurationPhase", objSchema [("start", numSchema), ("end", numSchema),
        ("iso_start", arrSchema strSchema), ("iso_end", arrSchema strSchema)]),
      ("DurationCurveData", objSchema [("reference", strSchema),
        ("units", strSchema), ("total_duration", refSchema "DurationRange"),
        ("onset", refSchema "DurationPhase"), ("peak", refSchema "DurationPhase"),
        ("offset", refSchema "DurationPhase"),
        ("after_effects", refSchema "DurationPhase")]),
      ("DurationCurveEntry", objSchema [("method", strSchema),
        ("duration_curve", refSchema "DurationCurveData")]),
      ("DoseRanges", objSchema [("threshold", strSchema), ("light", strSchema),
        ("common", strSchema), ("strong", strSchema), ("heavy", strSchema)]),
      ("RouteOfAdministration", objSchema [("route", strSchema),
        ("units", strSchema), ("notes", strSchema),
        ("dose_ranges", refSchema "DoseRanges")]),
      ("Dosages", objSchema [("routes_of_administration",
        arrSchema (refSchema "RouteOfAdministration"))]),
      ("DurationSummary", objSchema [("total_duration", strSchema),
        ("onset", strSchema), ("peak", strSchema), ("offset", strSchema),
        ("after_effects", strSchema)]),
      ("Interactions", objSchema [("dangerous", arrSchema strSchema),
        ("unsafe", arrSchema strSchema), ("caution", arrSchema strSchema)]),
      ("ToleranceModel", objSchema [("type", strSchema),
        ("build_rate", numSchema), ("decay_rate", numSchema),
        ("half_life", numSchema)]),
      ("ToleranceTimelinePoint", objSchema [("hours", numSchema),
        ("tolerance_percentage", numSchema), ("confidence", numSchema)]),
      ("ToleranceBaselinePoint", objSchema [("hours", numSchema),
        ("confidence", numSchema)]),
      ("ToleranceBaselines", objSchema [
        ("full_tolerance", refSchema "ToleranceBaselinePoint"),
        ("half_tolerance", refSchema "ToleranceBaselinePoint"),
        ("baseline_tolerance", refSchema "ToleranceBaselinePoint")]),
      ("CrossToleranceEntry", objSchema [("substance", strSchema),
        ("ratio", numSchema), ("confidence", numSchema)]),
      ("ToleranceData", objSchema [("model", refSchema "ToleranceModel"),
        ("timeline", arrSchema (refSchema "ToleranceTimelinePoint")),
        ("baselines", refSchema "ToleranceBaselines"),
        ("cross_tolerances", arrSchema (refSchema "CrossToleranceEntry")),
        ("notes", strSchema), ("data_quality", strSchema)]),
      ("Citation", objSchema [("name", strSchema), ("reference", strSchema)])]),
    ("title", .str "DrugInfo"),
    ("type", .str "object"),
    ("properties", .obj [
      ("drug_name", strSchema), ("search_url", strSchema),
      ("chemical_class", strSchema), ("psychoactive_class", strSchema),
      ("dosages", refSchema "Dosages"), ("duration", refSchema "DurationSummary"),
      ("duration_curves", arrSchema (refSchema "DurationCurveEntry")),
      ("addiction_potential", strSchema),
      ("interactions", refSchema "Interactions"), ("notes", strSchema),
      ("subjective_effects", arrSchema strSchema),
      ("tolerance", refSchema "ToleranceData"), ("half_life", strSchema),
      ("citations", arrSchema (refSchema "Citation")),
      ("categories", arrSchema strSchema)]),
    ("required", .arr (DrugInfo.declared.map Json.str)),
    ("additionalProperties", .bool false)]

/-- The `to_openai_structured_output` helper: wrap the record type's
JSON Schema in the fixed envelope.  The Python function takes no
arguments and reads only the type graph; the `Unit` argument stands
for one invocation. -/
def to_openai_structured_output (_u : Unit) : Json :=
  .obj [("type", .str "json_schema"),
        ("json_schema", .obj [
          ("name", .str "drug_info"),
          ("strict", .bool true),
          ("schema", drugInfoJsonSchema)])]

/-- Escape a character of a JSON string literal. -/
def escapeChar (c : Char) : List Char :=
  if c = '"' ∨ c = '\\' then ['\\', c] else [c]

/-- Render a JSON string literal. -/
def serializeStrLit (s : String) : String :=
  String.mk ('"' :: s.data.foldr (fun c acc => escapeChar c ++ acc) ['"'])

mutual
/-- Canonical byte rendering of a document. -/
def serializeJson : Json → String
  | .null => "null"
  | .bool b => if b then "true" else "false"
  | .num q => toString q
  | .str s => serializeStrLit s
  | .arr a => "[" ++ serializeArr a ++ "]"
  | .obj o => "\x7b" ++ serializeObj o ++ "\x7d"

/-- Comma-joined rendering of array elements. -/
def serializeArr : List Json → String
  | [] => ""
  | [x] => serializeJson x
  | x :: y :: xs => serializeJson x ++ "," ++ serializeArr (y :: xs)

/-- Comma-joined rendering of object entries. -/
def serializeObj : List (String × Json) → String
  | [] => ""
  | [(k, v)] => serializeStrLit k ++ ":" ++ serializeJson v
  | (k, v) :: e :: xs =>
    serializeStrLit k ++ ":" ++ serializeJson v ++ "," ++ serializeObj (e :: xs)
end

/-! ## Nested-notes replacement keeps construction succeeding -/

/-- Replacing the nested `notes` of a constructible
`RouteOfAdministration` input with any string keeps construction
succeeding and stores the new string, other fields unchanged. -/
theorem RouteOfAdministration_parse_replace_notes {o : List (String × Json)}
    {r : RouteOfAdministration} (s : String)
    (h : RouteOfAdministration.parse (.obj o) = .ok r) :
    RouteOfAdministration.parse (.obj (replaceKey o "notes" (.str s))) =
      .ok ⟨r.route, r.units, s, r.dose_ranges⟩ := by
  unfold RouteOfAdministration.parse at h ⊢
  rw [asObj_obj, bind_okl] at h ⊢
  obtain ⟨u0, hcl, h⟩ := bindE_ok h
  obtain ⟨route, hroute, h⟩ := bindE_ok h
  obtain ⟨units, hunits, h⟩ := bindE_ok h
  obtain ⟨notes, hnotes, h⟩ := bindE_ok h
  obtain ⟨dr, hdr, h⟩ := bindE_ok h
  injection h with h
  subst h
  rw [requireClosed_of_all (replaceKey_keys (requireClosed_ok hcl)), bind_okl]
  obtain ⟨jroute, hjroute, hproute⟩ := bindE_ok hroute
  have lroute : lookupJ (replaceKey o "notes" (.str s)) "route" = some jroute := by
    rw [lookupJ_replaceKey_ne (by decide)]
    exact getF_ok hjroute
  rw [fieldEval lroute hproute, bind_okl]
  obtain ⟨junits, hjunits, hpunits⟩ := bindE_ok hunits
  have lunits : lookupJ (replaceKey o "notes" (.str s)) "units" = some junits := by
    rw [lookupJ_replaceKey_ne (by decide)]
    exact getF_ok hjunits
  rw [fieldEval lunits hpunits, bind_okl]
  obtain ⟨jnotes, hjnotes, hpnotes⟩ := bindE_ok hnotes
  have hpres : (lookupJ o "notes").isSome = true := by
    rw [getF_ok hjnotes]
    rfl
  rw [fieldEval (lookupJ_replaceKey_self hpres) (asStr_str s), bind_okl]
  obtain ⟨jdr, hjdr, hpdr⟩ := bindE_ok hdr
  have ldr : lookupJ (replaceKey o "notes" (.str s)) "dose_ranges" = some jdr := by
    rw [lookupJ_replaceKey_ne (by decide)]
    exact getF_ok hjdr
  rw [fieldEval ldr hpdr, bind_okl]
  rfl

/-- Replacing the nested `notes` of a constructible `ToleranceData`
input with any string keeps construction succeeding and stores the new
string, other fields unchanged. -/
theorem ToleranceData_parse_replace_notes {o : List (String × Json)}
    {r : ToleranceData} (s : String)
    (h : ToleranceData.parse (.obj o) = .ok r) :
    ToleranceData.parse (.obj (replaceKey o "notes" (.str s))) =
      .ok ⟨r.model, r.timeline, r.baselines, r.cross_tolerances, s,
           r.data_quality⟩ := by
  unfold ToleranceData.parse at h ⊢
  rw [asObj_obj, bind_okl] at h ⊢
  obtain ⟨u0, hcl, h⟩ := bindE_ok h
  obtain ⟨m, hm, h⟩ := bindE_ok h
  obtain ⟨tl, htl, h⟩ := bindE_ok h
  obtain ⟨b, hb, h⟩ := bindE_ok h
  obtain ⟨ct, hct, h⟩ := bindE_ok h
  obtain ⟨n, hn, h⟩ := bindE_ok h
  obtain ⟨dq, hdq, h⟩ := bindE_ok h
  injection h with h
  subst h
  rw [requireClosed_of_all (replaceKey_keys (requireClosed_ok hcl)), bind_okl]
  obtain ⟨jm, hjm, hpm⟩ := bindE_ok hm
  have lm : lookupJ (replaceKey o "notes" (.str s)) "model" = some jm := by
    rw [lookupJ_replaceKey_ne (by decide)]
    exact getF_ok hjm
  rw [fieldEval lm hpm, bind_okl]
  obtain ⟨jtl, hjtl, hptl⟩ := bindE_ok htl
  have ltl : lookupJ (replaceKey o "notes" (.str s)) "timeline" = some jtl := by
    rw [lookupJ_replaceKey_ne (by decide)]
    exact getF_ok hjtl
  rw [fieldEval ltl hptl, bind_okl]
  obtain ⟨jb, hjb, hpb⟩ := bindE_ok hb
  have lb : lookupJ (replaceKey o "notes" (.str s)) "baselines" = some jb := by
    rw [lookupJ_replaceKey_ne (by decide)]
    exact getF_ok hjb
  rw [fieldEval lb hpb, bind_okl]
  obtain ⟨jct, hjct, hpct⟩ := bindE_ok hct
  have lct : lookupJ (replaceKey o "notes" (.str s)) "cross_tolerances" = some jct := by
    rw [lookupJ_replaceKey_ne (by decide)]
    exact getF_ok hjct
  rw [fieldEval lct hpct, bind_okl]
  obtain ⟨jn, hjn, hpn⟩ := bindE_ok hn
  have hpres : (lookupJ o "notes").isSome = true := by
    rw [getF_ok hjn]
    rfl
  rw [fieldEval (lookupJ_replaceKey_self hpres) (asStr_str s), bind_okl]
  obtain ⟨jdq, hjdq, hpdq⟩ := bindE_ok hdq
  have ldq : lookupJ (replaceKey o "notes" (.str s)) "data_quality" = some jdq := by
    rw [lookupJ_replaceKey_ne (by decide)]
    exact getF_ok hjdq
  rw [fieldEval ldq hpdq, bind_okl]
  rfl

/-! ## Claim theorems -/

/-- Two lookups of the same numeric field agree. -/
theorem num_lookup_inj {o : List (String × Json)} {k : String} {q q2 : Rat}
    (h1 : lookupJ o k = some (Json.num q))
    (h2 : lookupJ o k = some (Json.num q2)) : q = q2 := by
  rw [h1] at h2
  injection h2 with h2
  injection h2 with h2

/-- C1: the banned-domain check fails exactly when the lowercased
parsed host or the lowercased raw URL string contains
"psychonautwiki.org"; consequently a candidate record whose
`search_url` string contains that substring in any letter case never
constructs, and the check does not fail on a URL free of it. -/
theorem claim_C1 :
    (∀ host v : String,
      isOkE (no_psychonautwiki host v) =
        (!lowerContainsBanned host && !lowerContainsBanned v)) ∧
    (∀ u n rn tn : String, lowerContainsBanned u = true →
      isOkE (DrugInfo.parse (mkInput u n rn tn)) = false) := by
  refine ⟨no_psychonautwiki_isOk, ?_⟩
  intro u n rn tn h
  obtain ⟨e, he⟩ := parseSearchUrl_banned h
  rw [parse_mkInput_isOk, he]
  rfl

/-- Witness for C1: a mixed-case PsychonautWiki URL is rejected. -/
theorem claim_C1_witness :
    lowerContainsBanned "https://PsychonautWiki.org/x" = true ∧
    isOkE (DrugInfo.parse (mkInput "https://PsychonautWiki.org/x"
      "One. Two. Three." "user reports" "builds fast")) = false :=
  ⟨by decide, claim_C1.2 "https://PsychonautWiki.org/x" "One. Two. Three."
    "user reports" "builds fast" (by decide)⟩

/-- C2: the top-level notes check fails exactly when splitting on runs
of `.`, `!`, `?` and dropping whitespace-only segments leaves fewer
than 3 segments; on an otherwise-valid record, construction succeeds
exactly when 3 or more segments remain; "One. Two." is rejected and
"One. Two. Three." is accepted. -/
theorem claim_C2 :
    (∀ v : String,
      isOkE (notes_min_sentences v) = false ↔ (sentencesOf v).length < 3) ∧
    (∀ v rn tn : String,
      isOkE (DrugInfo.parse (mkInput "https://example.com/drug" v rn tn)) = true ↔
      3 ≤ (sentencesOf v).length) ∧
    isOkE (notes_min_sentences "One. Two.") = false ∧
    isOkE (notes_min_sentences "One. Two. Three.") = true := by
  refine ⟨?_, ?_, by decide, by decide⟩
  · intro v
    constructor
    · intro h
      by_contra hlt
      rw [notes_min_sentences_of_le (Nat.le_of_not_lt hlt)] at h
      exact Bool.noConfusion h
    · intro hlt
      unfold notes_min_sentences
      rw [if_pos hlt]
      rfl
  · intro v rn tn
    rw [parse_mkInput_isOk,
      show isOkE (parseSearchUrl (.str "https://example.com/drug")) = true
        from by decide,
      Bool.true_and]
    exact notes_min_sentences_isOk v

/-- C3: at every object level of the graph, construction fails when a
declared field is missing or an undeclared key is present (no field
has a default and no object accepts undeclared keys). -/
theorem claim_C3 :
    (∀ o : List (String × Json),
      ((∃ k ∈ DrugInfo.declared, lookupJ o k = none) ∨
       (∃ kv ∈ o, ¬ DrugInfo.declared.contains kv.1 = true)) →
      isOkE (DrugInfo.parse (.obj o)) = false) ∧
    (∀ o : List (String × Json),
      ((∃ k ∈ DurationRange.declared, lookupJ o k = none) ∨
       (∃ kv ∈ o, ¬ DurationRange.declared.contains kv.1 = true)) →
      isOkE (DurationRange.parse (.obj o)) = false) ∧
    (∀ o : List (String × Json),
      ((∃ k ∈ DurationPhase.declared, lookupJ o k = none) ∨
       (∃ kv ∈ o, ¬ DurationPhase.declared.contains kv.1 = true)) →
      isOkE (DurationPhase.parse (.obj o)) = false) ∧
    (∀ o : List (String × Json),
      ((∃ k ∈ DurationCurveData.declared, lookupJ o k = none) ∨
       (∃ kv ∈ o, ¬ DurationCurveData.declared.contains kv.1 = true)) →
      isOkE (DurationCurveData.parse (.obj o)) = false) ∧
    (∀ o : List (String × Json),
      ((∃ k ∈ DurationCurveEntry.declared, lookupJ o k = none) ∨
       (∃ kv ∈ o, ¬ DurationCurveEntry.declared.contains kv.1 = true)) →
      isOkE (DurationCurveEntry.parse (.obj o)) = false) ∧
    (∀ o : List (String × Json),
      ((∃ k ∈ DoseRanges.declared, lookupJ o k = none) ∨
       (∃ kv ∈ o, ¬ DoseRanges.declared.contains kv.1 = true)) →
      isOkE (DoseRanges.parse (.obj o)) = false) ∧
    (∀ o : List (String × Json),
      ((∃ k ∈ RouteOfAdministration.declared, lookupJ o k = none) ∨
       (∃ kv ∈ o, ¬ RouteOfAdministration.declared.contains kv.1 = true)) →
      isOkE (RouteOfAdministration.parse (.obj o)) = false) ∧
    (∀ o : List (String × Json),
      ((∃ k ∈ Dosages.declared, lookupJ o k = none) ∨
       (∃ kv ∈ o, ¬ Dosages.declared.contains kv.1 = true)) →
      isOkE (Dosages.parse (.obj o)) = false) ∧
    (∀ o : List (String × Json),
      ((∃ k ∈ DurationSummary.declared, lookupJ o k = none) ∨
       (∃ kv ∈ o, ¬ DurationSummary.declared.contains kv.1 = true)) →
      isOkE (DurationSummary.parse (.obj o)) = false) ∧
    (∀ o : List (String × Json),
      ((∃ k ∈ Interactions.declared, lookupJ o k = none) ∨
       (∃ kv ∈ o, ¬ Interactions.declared.contains kv.1 = true)) →
      isOkE (Interactions.parse (.obj o)) = false) ∧
    (∀ o : List (String × Json),
      ((∃ k ∈ ToleranceModel.declared, lookupJ o k = none) ∨
       (∃ kv ∈ o, ¬ ToleranceModel.declared.contains kv.1 = true)) →
      isOkE (ToleranceModel.parse (.obj o)) = false) ∧
    (∀ o : List (String × Json),
      ((∃ k ∈ ToleranceTimelinePoint.declared, lookupJ o k = none) ∨
       (∃ kv ∈ o, ¬ ToleranceTimelinePoint.declared.contains kv.1 = true)) →
      isOkE (ToleranceTimelinePoint.parse (.obj o)) = false) ∧
    (∀ o : List (String × Json),
      ((∃ k ∈ ToleranceBaselinePoint.declared, lookupJ o k = none) ∨
       (∃ kv ∈ o, ¬ ToleranceBaselinePoint.declared.contains kv.1 = true)) →
      isOkE (ToleranceBaselinePoint.parse (.obj o)) = false) ∧
    (∀ o : List (String × Json),
      ((∃ k ∈ ToleranceBaselines.declared, lookupJ o k = none) ∨
       (∃ kv ∈ o, ¬ ToleranceBaselines.declared.contains kv.1 = true)) →
      isOkE (ToleranceBaselines.parse (.obj o)) = false) ∧
    (∀ o : List (String × Json),
      ((∃ k ∈ CrossToleranceEntry.declared, lookupJ o k = none) ∨
       (∃ kv ∈ o, ¬ CrossToleranceEntry.declared.contains kv.1 = true)) →
      isOkE (CrossToleranceEntry.parse (.obj o)) = false) ∧
    (∀ o : List (String × Json),
      ((∃ k ∈ ToleranceData.declared, lookupJ o k = none) ∨
       (∃ kv ∈ o, ¬ ToleranceData.declared.contains kv.1 = true)) →
      isOkE (ToleranceData.parse (.obj o)) = false) ∧
    (∀ o : List (String × Json),
      ((∃ k ∈ Citation.declared, lookupJ o k = none) ∨
       (∃ kv ∈ o, ¬ Citation.declared.contains kv.1 = true)) →
      isOkE (Citation.parse (.obj o)) = false) :=
  ⟨fun _ hbad => structuralFail (fun hh => DrugInfo_parse_keys hh) hbad,
   fun _ hbad => structuralFail (fun hh => DurationRange_parse_keys hh) hbad,
   fun _ hbad => structuralFail (fun hh => DurationPhase_parse_keys hh) hbad,
   fun _ hbad => structuralFail (fun hh => DurationCurveData_parse_keys hh) hbad,
   fun _ hbad => structuralFail (fun hh => DurationCurveEntry_parse_keys hh) hbad,
   fun _ hbad => structuralFail (fun hh => DoseRanges_parse_keys hh) hbad,
   fun _ hbad => structuralFail (fun hh => RouteOfAdministration_parse_keys hh) hbad,
   fun _ hbad => structuralFail (fun hh => Dosages_parse_keys hh) hbad,
   fun _ hbad => structuralFail (fun hh => DurationSummary_parse_keys hh) hbad,
   fun _ hbad => structuralFail (fun hh => Interactions_parse_keys hh) hbad,
   fun _ hbad => structuralFail (fun hh => ToleranceModel_parse_keys hh) hbad,
   fun _ hbad => structuralFail (fun hh => ToleranceTimelinePoint_parse_keys hh) hbad,
   fun _ hbad => structuralFail (fun hh => ToleranceBaselinePoint_parse_keys hh) hbad,
   fun _ hbad => structuralFail (fun hh => ToleranceBaselines_parse_keys hh) hbad,
   fun _ hbad => structuralFail (fun hh => CrossToleranceEntry_parse_keys hh) hbad,
   fun _ hbad => structuralFail (fun hh => ToleranceData_parse_keys hh) hbad,
   fun _ hbad => structuralFail (fun hh => Citation_parse_keys hh) hbad⟩

/-- Witness for C3: the empty mapping (missing `drug_name`) fails. -/
theorem claim_C3_witness :
    ((∃ k ∈ DrugInfo.declared, lookupJ ([] : List (String × Json)) k = none) ∨
     (∃ kv ∈ ([] : List (String × Json)),
       ¬ DrugInfo.declared.contains kv.1 = true)) ∧
    isOkE (DrugInfo.parse (.obj [])) = false :=
  ⟨Or.inl ⟨"drug_name", by decide, rfl⟩,
   claim_C3.1 [] (Or.inl ⟨"drug_name", by decide, rfl⟩)⟩

/-- Counterexample to C4 as stated: a `DurationRange` with a negative
`min` duration value constructs successfully, because the source
declares `min`/`max` as plain floats with no bound. -/
theorem claim_C4_counterexample :
    isOkE (DurationRange.parse (.obj [("min", .num (-1)), ("max", .num 1),
      ("iso", .arr []), ("note", .str "x")])) = true := by decide

/-- C4 (amended): a negative value in any `NonNegativeNumber`-typed
field (`ToleranceModel.build_rate`/`decay_rate`/`half_life`,
`ToleranceTimelinePoint.hours`) fails construction, while
`DurationRange.min`/`max`, `DurationPhase.start`/`end` and
`ToleranceBaselinePoint.hours` are plain floats that accept negative
values. -/
theorem claim_C4_amended :
    (∀ (o : List (String × Json)) (q : Rat),
      lookupJ o "build_rate" = some (.num q) → q < 0 →
      isOkE (ToleranceModel.parse (.obj o)) = false) ∧
    (∀ (o : List (String × Json)) (q : Rat),
      lookupJ o "decay_rate" = some (.num q) → q < 0 →
      isOkE (ToleranceModel.parse (.obj o)) = false) ∧
    (∀ (o : List (String × Json)) (q : Rat),
      lookupJ o "half_life" = some (.num q) → q < 0 →
      isOkE (ToleranceModel.parse (.obj o)) = false) ∧
    (∀ (o : List (String × Json)) (q : Rat),
      lookupJ o "hours" = some (.num q) → q < 0 →
      isOkE (ToleranceTimelinePoint.parse (.obj o)) = false) ∧
    isOkE (DurationRange.parse (.obj [("min", .num (-1)), ("max", .num (-2)),
      ("iso", .arr []), ("note", .str "x")])) = true ∧
    isOkE (DurationPhase.parse (.obj [("start", .num (-1)), ("end", .num (-2)),
      ("iso_start", .arr []), ("iso_end", .arr [])])) = true ∧
    isOkE (ToleranceBaselinePoint.parse (.obj [("hours", .num (-5)),
      ("confidence", .num 50)])) = true := by
  refine ⟨?_, ?_, ?_, ?_, by decide, by decide, by decide⟩
  · intro o q hl hneg
    cases hok : isOkE (ToleranceModel.parse (.obj o)) with
    | false => rfl
    | true =>
      exfalso
      obtain ⟨r, hr⟩ := isOkE_true_iff.mp hok
      obtain ⟨o2, hobj, _, _, ⟨hlf, hnn⟩, _, _⟩ := ToleranceModel_parse_sound hr
      injection hobj with hobj
      subst hobj
      rw [num_lookup_inj hl hlf] at hneg
      exact not_le_of_lt hneg hnn
  · intro o q hl hneg
    cases hok : isOkE (ToleranceModel.parse (.obj o)) with
    | false => rfl
    | true =>
      exfalso
      obtain ⟨r, hr⟩ := isOkE_true_iff.mp hok
      obtain ⟨o2, hobj, _, _, _, ⟨hlf, hnn⟩, _⟩ := ToleranceModel_parse_sound hr
      injection hobj with hobj
      subst hobj
      rw [num_lookup_inj hl hlf] at hneg
      exact not_le_of_lt hneg hnn
  · intro o q hl hneg
    cases hok : isOkE (ToleranceModel.parse (.obj o)) with
    | false => rfl
    | true =>
      exfalso
      obtain ⟨r, hr⟩ := isOkE_true_iff.mp hok
      obtain ⟨o2, hobj, _, _, _, _, ⟨hlf, hnn⟩⟩ := ToleranceModel_parse_sound hr
      injection hobj with hobj
      subst hobj
      rw [num_lookup_inj hl hlf] at hneg
      exact not_le_of_lt hneg hnn
  · intro o q hl hneg
    cases hok : isOkE (ToleranceTimelinePoint.parse (.obj o)) with
    | false => rfl
    | true =>
      exfalso
      obtain ⟨r, hr⟩ := isOkE_true_iff.mp hok
      obtain ⟨o2, hobj, _, ⟨hlf, hnn⟩, _, _⟩ :=
        ToleranceTimelinePoint_parse_sound hr
      injection hobj with hobj
      subst hobj
      rw [num_lookup_inj hl hlf] at hneg
      exact not_le_of_lt hneg hnn

/-- Witness for C4 (amended): a negative `build_rate` fails. -/
theorem claim_C4_amended_witness :
    lookupJ [("type", Json.str "exponential"), ("build_rate", Json.num (-1)),
      ("decay_rate", Json.num 1), ("half_life", Json.num 1)] "build_rate" =
      some (.num (-1)) ∧
    isOkE (ToleranceModel.parse (.obj [("type", Json.str "exponential"),
      ("build_rate", Json.num (-1)), ("decay_rate", Json.num 1),
      ("half_life", Json.num 1)])) = false :=
  ⟨rfl, claim_C4_amended.1 _ (-1) rfl (by decide)⟩

/-- C5: every percentage-typed field rejects values outside [0, 100],
and the cross-tolerance ratio rejects values outside [0, 1]. -/
theorem claim_C5 :
    (∀ (o : List (String × Json)) (q : Rat),
      lookupJ o "tolerance_percentage" = some (.num q) → (q < 0 ∨ 100 < q) →
      isOkE (ToleranceTimelinePoint.parse (.obj o)) = false) ∧
    (∀ (o : List (String × Json)) (q : Rat),
      lookupJ o "confidence" = some (.num q) → (q < 0 ∨ 100 < q) →
      isOkE (ToleranceTimelinePoint.parse (.obj o)) = false) ∧
    (∀ (o : List (String × Json)) (q : Rat),
      lookupJ o "confidence" = some (.num q) → (q < 0 ∨ 100 < q) →
      isOkE (ToleranceBaselinePoint.parse (.obj o)) = false) ∧
    (∀ (o : List (String × Json)) (q : Rat),
      lookupJ o "confidence" = some (.num q) → (q < 0 ∨ 100 < q) →
      isOkE (CrossToleranceEntry.parse (.obj o)) = false) ∧
    (∀ (o : List (String × Json)) (q : Rat),
      lookupJ o "ratio" = some (.num q) → (q < 0 ∨ 1 < q) →
      isOkE (CrossToleranceEntry.parse (.obj o)) = false) := by
  refine ⟨?_, ?_, ?_, ?_, ?_⟩
  · intro o q hl hout
    cases hok : isOkE (ToleranceTimelinePoint.parse (.obj o)) with
    | false => rfl
    | true =>
      exfalso
      obtain ⟨r, hr⟩ := isOkE_true_iff.mp hok
      obtain ⟨o2, hobj, _, _, ⟨hlf, hlo, hhi⟩, _⟩ :=
        ToleranceTimelinePoint_parse_sound hr
      injection hobj with hobj
      subst hobj
      rw [num_lookup_inj hl hlf] at hout
      rcases hout with hlt | hgt
      · exact not_le_of_lt hlt hlo
      · exact not_le_of_lt hgt hhi
  · intro o q hl hout
    cases hok : isOkE (ToleranceTimelinePoint.parse (.obj o)) with
    | false => rfl
    | true =>
      exfalso
      obtain ⟨r, hr⟩ := isOkE_true_iff.mp hok
      obtain ⟨o2, hobj, _, _, _, ⟨hlf, hlo, hhi⟩⟩ :=
        ToleranceTimelinePoint_parse_sound hr
      injection hobj with hobj
      subst hobj
      rw [num_lookup_inj hl hlf] at hout
      rcases hout with hlt | hgt
      · exact not_le_of_lt hlt hlo
      · exact not_le_of_lt hgt hhi
  · intro o q hl hout
    cases hok : isOkE (ToleranceBaselinePoint.parse (.obj o)) with
    | false => rfl
    | true =>
      exfalso
      obtain ⟨r, hr⟩ := isOkE_true_iff.mp hok
      obtain ⟨o2, hobj, _, _, ⟨hlf, hlo, hhi⟩⟩ :=
        ToleranceBaselinePoint_parse_sound hr
      injection hobj with hobj
      subst hobj
      rw [num_lookup_inj hl hlf] at hout
      rcases hout with hlt | hgt
      · exact not_le_of_lt hlt hlo
      · exact not_le_of_lt hgt hhi
  · intro o q hl hout
    cases hok : isOkE (CrossToleranceEntry.parse (.obj o)) with
    | false => rfl
    | true =>
      exfalso
      obtain ⟨r, hr⟩ := isOkE_true_iff.mp hok
      obtain ⟨o2, hobj, _, _, _, ⟨hlf, hlo, hhi⟩⟩ :=
        CrossToleranceEntry_parse_sound hr
      injection hobj with hobj
      subst hobj
      rw [num_lookup_inj hl hlf] at hout
      rcases hout with hlt | hgt
      · exact not_le_of_lt hlt hlo
      · exact not_le_of_lt hgt hhi
  · intro o q hl hout
    cases hok : isOkE (CrossToleranceEntry.parse (.obj o)) with
    | false => rfl
    | true =>
      exfalso
      obtain ⟨r, hr⟩ := isOkE_true_iff.mp hok
      obtain ⟨o2, hobj, _, _, ⟨hlf, hlo, hhi⟩, _⟩ :=
        CrossToleranceEntry_parse_sound hr
      injection hobj with hobj
      subst hobj
      rw [num_lookup_inj hl hlf] at hout
      rcases hout with hlt | hgt
      · exact not_le_of_lt hlt hlo
      · exact not_le_of_lt hgt hhi

/-- Witness for C5: a 101 percentage and a -1 ratio both fail. -/
theorem claim_C5_witness :
    lookupJ [("hours", Json.num 1), ("tolerance_percentage", Json.num 101),
      ("confidence", Json.num 50)] "tolerance_percentage" = some (.num 101) ∧
    ((101 : Rat) < 0 ∨ (100 : Rat) < 101) ∧
    isOkE (ToleranceTimelinePoint.parse (.obj [("hours", Json.num 1),
      ("tolerance_percentage", Json.num 101),
      ("confidence", Json.num 50)])) = false :=
  ⟨rfl, Or.inr (by decide),
   claim_C5.1 _ 101 rfl (Or.inr (by decide))⟩

/-- C6: every candidate mapping satisfying all declared field
constraints constructs successfully, and every field of the resulting
record equals the corresponding input value (in particular the stored
`search_url` equals the supplied URL string). -/
theorem claim_C6 :
    ∀ j : Json, ValidDrugInfo j = true →
      ∃ r, DrugInfo.parse j = .ok r ∧ MatchDrugInfo r j := by
  intro j h
  obtain ⟨r, hr⟩ := DrugInfo_parse_complete h
  exact ⟨r, hr, DrugInfo_parse_sound hr⟩

/-- Witness for C6 on the fully populated sample. -/
theorem claim_C6_witness :
    ValidDrugInfo sampleInput = true ∧
    ∃ r, DrugInfo.parse sampleInput = .ok r ∧ MatchDrugInfo r sampleInput :=
  ⟨by decide, claim_C6 sampleInput (by decide)⟩

/-- C8: on every invocation the export's top level is exactly the
fixed envelope, with `json_schema.name = "drug_info"` and
`json_schema.strict = true` around the record type's schema. -/
theorem claim_C8 :
    ∀ u : Unit,
      to_openai_structured_output u =
        .obj [("type", .str "json_schema"),
              ("json_schema", .obj [("name", .str "drug_info"),
                ("strict", .bool true), ("schema", drugInfoJsonSchema)])] ∧
      (∃ env, to_openai_structured_output u = .obj env ∧
        lookupJ env "type" = some (.str "json_schema") ∧
        ∃ js, lookupJ env "json_schema" = some (.obj js) ∧
          lookupJ js "name" = some (.str "drug_info") ∧
          lookupJ js "strict" = some (.bool true) ∧
          lookupJ js "schema" = some drugInfoJsonSchema) := by
  intro u
  exact ⟨rfl, ⟨_, rfl, rfl, ⟨_, rfl, rfl, rfl, rfl⟩⟩⟩

/-- C9: schema export is deterministic and side-effect-free — any two
invocations return the same document, byte-identical when
serialized. -/
theorem claim_C9 :
    ∀ u v : Unit,
      to_openai_structured_output u = to_openai_structured_output v ∧
      serializeJson (to_openai_structured_output u) =
        serializeJson (to_openai_structured_output v) := by
  intro u v
  cases u
  cases v
  exact ⟨rfl, rfl⟩

/-- C10: the 3-sentence rule binds only the top-level notes field: a
fully populated record constructs for any nested
`RouteOfAdministration.notes` and `ToleranceData.notes` strings, and
replacing the nested notes of any constructible input with any string
(including the empty string) still constructs, storing the new
string. -/
theorem claim_C10 :
    (∀ rn tn : String, isOkE (DrugInfo.parse
      (mkInput "https://example.com/drug" "One. Two. Three." rn tn)) = true) ∧
    (∀ (o : List (String × Json)) (r : RouteOfAdministration) (s : String),
      RouteOfAdministration.parse (.obj o) = .ok r →
      RouteOfAdministration.parse (.obj (replaceKey o "notes" (.str s))) =
        .ok ⟨r.route, r.units, s, r.dose_ranges⟩) ∧
    (∀ (o : List (String × Json)) (r : ToleranceData) (s : String),
      ToleranceData.parse (.obj o) = .ok r →
      ToleranceData.parse (.obj (replaceKey o "notes" (.str s))) =
        .ok ⟨r.model, r.timeline, r.baselines, r.cross_tolerances, s,
             r.data_quality⟩) := by
  refine ⟨?_, fun o r s h => RouteOfAdministration_parse_replace_notes s h,
    fun o r s h => ToleranceData_parse_replace_notes s h⟩
  intro rn tn
  rfl

/-- Witness for C10: emptying the nested route notes of a valid input
still constructs. -/
theorem claim_C10_witness :
    RouteOfAdministration.parse (.obj [("route", Json.str "oral"),
      ("units", Json.str "mg"), ("notes", Json.str "x"),
      ("dose_ranges", sampleDoseRanges)]) =
      .ok ⟨"oral", "mg", "x", ⟨"5 mg", "10 mg", "20 mg", "40 mg", "80 mg"⟩⟩ ∧
    RouteOfAdministration.parse (.obj (replaceKey [("route", Json.str "oral"),
      ("units", Json.str "mg"), ("notes", Json.str "x"),
      ("dose_ranges", sampleDoseRanges)] "notes" (.str ""))) =
      .ok ⟨"oral", "mg", "", ⟨"5 mg", "10 mg", "20 mg", "40 mg", "80 mg"⟩⟩ :=
  ⟨rfl, claim_C10.2.1 [("route", Json.str "oral"), ("units", Json.str "mg"),
    ("notes", Json.str "x"), ("dose_ranges", sampleDoseRanges)]
    ⟨"oral", "mg", "x", ⟨"5 mg", "10 mg", "20 mg", "40 mg", "80 mg"⟩⟩ "" rfl⟩

/-- C7: assigning a new value to a field of a constructed record
re-runs the same per-field validation pipeline used at construction; a
failing value yields an error and no updated record (the caller's
record keeps its prior value — the model is functional, so the prior
record is untouched by construction of the update), a passing value
updates only that field, and a record satisfying the custom rules can
never reach a state violating them through assignment. -/
theorem claim_C7 :
    (∀ (r : DrugInfo) (v : Json) (r2 : DrugInfo),
      DrugInfo.setField r .notes v = .ok r2 →
      v = .str r2.notes ∧ 3 ≤ (sentencesOf r2.notes).length ∧
      r2 = { r with notes := r2.notes }) ∧
    (∀ (r : DrugInfo) (v : Json) (r2 : DrugInfo),
      DrugInfo.setField r .search_url v = .ok r2 →
      v = .str r2.search_url ∧ lowerContainsBanned r2.search_url = false ∧
      r2 = { r with search_url := r2.search_url }) ∧
    (∀ (r : DrugInfo) (v : Json),
      isOkE (DrugInfo.setField r .notes v) = isOkE (parseNotesField v)) ∧
    (∀ (r : DrugInfo) (v : Json),
      isOkE (DrugInfo.setField r .search_url v) = isOkE (parseSearchUrl v)) ∧
    (∀ (r : DrugInfo) (f : DrugInfoField) (v : Json) (r2 : DrugInfo),
      CustomRulesHold r → DrugInfo.setField r f v = .ok r2 →
      CustomRulesHold r2) := by
  refine ⟨?_, ?_, ?_, ?_, ?_⟩
  · intro r v r2 h
    obtain ⟨s, hs, h⟩ := bindE_ok (h :
      (parseNotesField v >>= fun s => pure { r with notes := s }) = .ok r2)
    injection h with h
    subst h
    obtain ⟨hv, hlen⟩ := parseNotesField_ok hs
    exact ⟨hv, hlen, rfl⟩
  · intro r v r2 h
    obtain ⟨s, hs, h⟩ := bindE_ok (h :
      (parseSearchUrl v >>= fun s => pure { r with search_url := s }) = .ok r2)
    injection h with h
    subst h
    obtain ⟨hv, _, hnb⟩ := parseSearchUrl_ok hs
    exact ⟨hv, hnb, rfl⟩
  · intro r v
    show isOkE (parseNotesField v >>= fun s =>
      (pure { r with notes := s } : Except String DrugInfo)) =
      isOkE (parseNotesField v)
    cases hp : parseNotesField v with
    | error e => rfl
    | ok s => rfl
  · intro r v
    show isOkE (parseSearchUrl v >>= fun s =>
      (pure { r with search_url := s } : Except String DrugInfo)) =
      isOkE (parseSearchUrl v)
    cases hp : parseSearchUrl v with
    | error e => rfl
    | ok s => rfl
  · intro r f v r2 hr h
    cases f with
    | drug_name =>
      obtain ⟨s, hs, h⟩ := bindE_ok (h :
        (asStr v >>= fun s => pure { r with drug_name := s }) = .ok r2)
      injection h with h
      subst h
      exact hr
    | search_url =>
      obtain ⟨s, hs, h⟩ := bindE_ok (h :
        (parseSearchUrl v >>= fun s => pure { r with search_url := s }) = .ok r2)
      injection h with h
      subst h
      exact ⟨hr.1, (parseSearchUrl_ok hs).2.2⟩
    | chemical_class =>
      obtain ⟨s, hs, h⟩ := bindE_ok (h :
        (asStr v >>= fun s => pure { r with chemical_class := s }) = .ok r2)
      injection h with h
      subst h
      exact hr
    | psychoactive_class =>
      obtain ⟨s, hs, h⟩ := bindE_ok (h :
        (asStr v >>= fun s => pure { r with psychoactive_class := s }) = .ok r2)
      injection h with h
      subst h
      exact hr
    | dosages =>
      obtain ⟨s, hs, h⟩ := bindE_ok (h :
        (Dosages.parse v >>= fun s => pure { r with dosages := s }) = .ok r2)
      injection h with h
      subst h
      exact hr
    | duration =>
      obtain ⟨s, hs, h⟩ := bindE_ok (h :
        (DurationSummary.parse v >>= fun s =>
          pure { r with duration := s }) = .ok r2)
      injection h with h
      subst h
      exact hr
    | duration_curves =>
      obtain ⟨s, hs, h⟩ := bindE_ok (h :
        (parseArrOf DurationCurveEntry.parse v >>= fun s =>
          pure { r with duration_curves := s }) = .ok r2)
      injection h with h
      subst h
      exact hr
    | addiction_potential =>
      obtain ⟨s, hs, h⟩ := bindE_ok (h :
        (asStr v >>= fun s => pure { r with addiction_potential := s }) = .ok r2)
      injection h with h
      subst h
      exact hr
    | interactions =>
      obtain ⟨s, hs, h⟩ := bindE_ok (h :
        (Interactions.parse v >>= fun s =>
          pure { r with interactions := s }) = .ok r2)
      injection h with h
      subst h
      exact hr
    | notes =>
      obtain ⟨s, hs, h⟩ := bindE_ok (h :
        (parseNotesField v >>= fun s => pure { r with notes := s }) = .ok r2)
      injection h with h
      subst h
      exact ⟨(parseNotesField_ok hs).2, hr.2⟩
    | subjective_effects =>
      obtain ⟨s, hs, h⟩ := bindE_ok (h :
        (parseArrOf asStr v >>= fun s =>
          pure { r with subjective_effects := s }) = .ok r2)
      injection h with h
      subst h
      exact hr
    | tolerance =>
      obtain ⟨s, hs, h⟩ := bindE_ok (h :
        (ToleranceData.parse v >>= fun s =>
          pure { r with tolerance := s }) = .ok r2)
      injection h with h
      subst h
      exact hr
    | half_life =>
      obtain ⟨s, hs, h⟩ := bindE_ok (h :
        (asStr v >>= fun s => pure { r with half_life := s }) = .ok r2)
      injection h with h
      subst h
      exact hr
    | citations =>
      obtain ⟨s, hs, h⟩ := bindE_ok (h :
        (parseArrOf Citation.parse v >>= fun s =>
          pure { r with citations := s }) = .ok r2)
      injection h with h
      subst h
      exact hr
    | categories =>
      obtain ⟨s, hs, h⟩ := bindE_ok (h :
        (parseArrOf (parseEnum categoryEnumTokens) v >>= fun s =>
          pure { r with categories := s }) = .ok r2)
      injection h with h
      subst h
      exact hr

/-- Witness for C7: a record built from the sample keeps the custom
rules across a successful notes assignment. -/
theorem claim_C7_witness :
    CustomRulesHold (mkRecord "https://example.com/drug" "One. Two. Three."
      "user reports" "builds fast") ∧
    CustomRulesHold { mkRecord "https://example.com/drug" "One. Two. Three."
      "user reports" "builds fast" with notes := "A. B. C." } :=
  ⟨⟨by decide, by decide⟩,
   claim_C7.2.2.2.2 (mkRecord "https://example.com/drug" "One. Two. Three."
       "user reports" "builds fast") .notes (.str "A. B. C.")
     { mkRecord "https://example.com/drug" "One. Two. Three."
       "user reports" "builds fast" with notes := "A. B. C." }
     ⟨by decide, by decide⟩ rfl⟩
